import Mathlib

/-!
Shallow embedding of the request-construction and authentication core of the
`authentrics-client` Python library, together with theorems checking the
repository specification against it.

Modelling conventions, used throughout:
* Python `dict` objects are insertion-ordered association lists with unique
  keys; `dictSet` replaces an existing binding in place (Python keeps the
  original insertion position on re-assignment) and appends fresh keys.
* Python byte strings and binary file contents are modelled as Lean `String`s
  (one character per byte).
* Python exceptions become constructors of `PyError`.  The specification's
  abstract error taxonomy maps onto the concrete exceptions the code raises:
  `ConfigurationError` covers `ValueError`/`AssertionError` raised locally
  before a network call, `UnsupportedInputError` covers the `ValueError`
  raised for directory uploads, `NotFoundError` covers `FileNotFoundError`,
  `AlreadyExistsError` covers `FileExistsError`, and the token errors cover
  the `ValueError` messages "Token has expired" / "Invalid token".
* The network, the clock, JWT decoding and the local filesystem are oracles
  supplied as explicit parameters (`World`, `FileSystem`).
-/

namespace Authentrics

/-! ## Python dictionaries as ordered association lists -/
/-- Lookup in a Python dict (first binding of the key). -/
def dictGet {α : Type} : List (String × α) → String → Option α
  | [], _ => none
  | (k', v) :: rest, k => if k' = k then some v else dictGet rest k

/-- Python `d[k] = v`: replace the first binding of `k` in place, keeping its
position, or append a new binding at the end. -/
def dictSet {α : Type} : List (String × α) → String → α → List (String × α)
  | [], k, v => [(k, v)]
  | (k', v') :: rest, k, v =>
    if k' = k then (k, v) :: rest else (k', v') :: dictSet rest k v

/-- Python `d.update(e)`: fold `dictSet` over the bindings of `e`. -/
def dictUpdate {α : Type} (d e : List (String × α)) : List (String × α) :=
  e.foldl (fun acc p => dictSet acc p.1 p.2) d

/-- Python `d.pop(k)` (the removal part): drop the first binding of `k`. -/
def dictPop {α : Type} : List (String × α) → String → List (String × α)
  | [], _ => []
  | (k', v') :: rest, k => if k' = k then rest else (k', v') :: dictPop rest k

/-! ## Python values and their textual renderings -/
/-- Python exceptions raised by the embedded code.  See the module comment for
how the abstract spec taxonomy maps onto these constructors. -/
inductive PyError where
  | valueError (msg : String)
  | typeError (msg : String)
  | fileNotFoundError (msg : String)
  | fileExistsError (msg : String)
  | keyError (key : String)
  | assertionError
  | httpError (status : Nat) (body : String)
  | transportError (tag : String)
deriving DecidableEq, Repr

/-- Python values as they occur in keyword-argument field sets.  `float`
carries its Python `repr` string (no float arithmetic happens in the
embedded code); `bytes` carries the byte string; `obj` stands for any value
of an unsupported class and carries the class name. -/
inductive PyVal where
  | str (s : String)
  | bytes (b : String)
  | int (i : Int)
  | float (r : String)
  | bool (b : Bool)
  | list (xs : List PyVal)
  | tuple (xs : List PyVal)
  | dict (kvs : List (String × PyVal))
  | pynone
  | obj (typeName : String)

/-- The apostrophe character, used by Python `repr` of strings. -/
def squote : String := String.singleton (Char.ofNat 39)

/-- Python `repr` of a byte string (modelled for printable ASCII content). -/
def bytesRepr (b : String) : String := "b" ++ squote ++ b ++ squote

mutual

/-- Python `repr` of a value (modelled for printable ASCII content; used by
`str` on container elements). -/
def pyRepr : PyVal → String
  | .str s => squote ++ s ++ squote
  | .bytes b => bytesRepr b
  | .int i => toString i
  | .float r => r
  | .bool b => if b then "True" else "False"
  | .pynone => "None"
  | .obj t => "<" ++ t ++ " object>"
  | .list xs => "[" ++ pyReprSeq xs ++ "]"
  | .tuple [x] => "(" ++ pyRepr x ++ ",)"
  | .tuple xs => "(" ++ pyReprSeq xs ++ ")"
  | .dict kvs => "\x7b" ++ pyReprDict kvs ++ "\x7d"
termination_by v => sizeOf v
decreasing_by all_goals (simp_wf; try omega)

/-- Comma-space-joined `repr`s of sequence elements. -/
def pyReprSeq : List PyVal → String
  | [] => ""
  | [v] => pyRepr v
  | v :: vs => pyRepr v ++ ", " ++ pyReprSeq vs
termination_by xs => sizeOf xs
decreasing_by all_goals (simp_wf; try omega)

/-- Comma-space-joined `repr`s of dict items. -/
def pyReprDict : List (String × PyVal) → String
  | [] => ""
  | [(k, v)] => squote ++ k ++ squote ++ ": " ++ pyRepr v
  | (k, v) :: kvs => squote ++ k ++ squote ++ ": " ++ pyRepr v ++ ", " ++ pyReprDict kvs
termination_by kvs => sizeOf kvs
decreasing_by all_goals (simp_wf; try omega)

end

/-- Python `str()`: identity on strings, `repr`-like otherwise. -/
def pyStr : PyVal → String
  | .str s => s
  | v => pyRepr v

/-- JSON string quoting as done by `json.dumps` (modelled for content without
characters that `json.dumps` escapes). -/
def jsonQuote (s : String) : String := "\"" ++ s ++ "\""

mutual

/-- Python `json.dumps` with default options (`", "` / `": "` separators,
insertion key order).  Returns `none` where `json.dumps` raises `TypeError`
(byte strings and other non-serializable objects). -/
def jsonDumps : PyVal → Option String
  | .str s => some (jsonQuote s)
  | .bytes _ => none
  | .int i => some (toString i)
  | .float r => some r
  | .bool b => some (if b then "true" else "false")
  | .pynone => some "null"
  | .obj _ => none
  | .list xs => (jsonDumpsSeq xs).map fun body => "[" ++ body ++ "]"
  | .tuple xs => (jsonDumpsSeq xs).map fun body => "[" ++ body ++ "]"
  | .dict kvs => (jsonDumpsDict kvs).map fun body => "\x7b" ++ body ++ "\x7d"
termination_by v => sizeOf v
decreasing_by all_goals (simp_wf; try omega)

/-- `json.dumps` of the elements of an array, comma-space separated. -/
def jsonDumpsSeq : List PyVal → Option String
  | [] => some ""
  | [v] => jsonDumps v
  | v :: vs => do
    let a ← jsonDumps v
    let b ← jsonDumpsSeq vs
    return a ++ ", " ++ b
termination_by xs => sizeOf xs
decreasing_by all_goals (simp_wf; try omega)

/-- `json.dumps` of the items of an object, comma-space separated. -/
def jsonDumpsDict : List (String × PyVal) → Option String
  | [] => some ""
  | [(k, v)] => (jsonDumps v).map fun a => jsonQuote k ++ ": " ++ a
  | (k, v) :: kvs => do
    let a ← jsonDumps v
    let b ← jsonDumpsDict kvs
    return jsonQuote k ++ ": " ++ a ++ ", " ++ b
termination_by kvs => sizeOf kvs
decreasing_by all_goals (simp_wf; try omega)

end

/-- The Python class name of a value, used in the unsupported-type message. -/
def pyTypeName : PyVal → String
  | .str _ => "str"
  | .bytes _ => "bytes"
  | .int _ => "int"
  | .float _ => "float"
  | .bool _ => "bool"
  | .list _ => "list"
  | .tuple _ => "tuple"
  | .dict _ => "dict"
  | .pynone => "NoneType"
  | .obj t => t

/-! ## Local filesystem model -/
/-- A filesystem node: a regular file with its binary content, or a
directory. -/
inductive FSNode where
  | file (content : String)
  | dir
deriving DecidableEq, Repr

/-- The local filesystem as a partial map from path strings to nodes. -/
abbrev FileSystem : Type := String → Option FSNode

/-- `Path(p).is_dir()`. -/
def isDir (fs : FileSystem) (p : String) : Bool :=
  match fs p with
  | some .dir => true
  | _ => false

/-- `Path(p).is_file()`. -/
def isFile (fs : FileSystem) (p : String) : Bool :=
  match fs p with
  | some (.file _) => true
  | _ => false

/-- The binary content of the regular file at `p` (empty if absent). -/
def readFile (fs : FileSystem) (p : String) : String :=
  match fs p with
  | some (.file c) => c
  | _ => ""

/-- Overwrite the node stored at path `p`. -/
def fsSet (fs : FileSystem) (p : String) (n : FSNode) : FileSystem :=
  fun q => if q = p then some n else fs q

/-- `Path(p).name` on the character list: drop trailing slashes, then take
the final component after the last remaining slash. -/
def baseNameChars (cs : List Char) : List Char :=
  (((cs.reverse.dropWhile fun c => c == '/').takeWhile fun c => c != '/')).reverse

/-- `Path(p).name`: the final nonempty path component. -/
def baseName (p : String) : String :=
  String.mk (baseNameChars p.data)

/-! ## The multipart payload builder (`client/types.py`) -/
/-- The middle component of a multipart form-part triple: either a plain
value passed through to the HTTP layer, or an opened binary file modelled by
its content. -/
inductive PartData where
  | pv (v : PyVal)
  | fileHandle (content : String)

/-- One multipart form part: `(filename-or-None, data, content-type-or-None)`. -/
abbrev Part : Type := Option String × PartData × Option String

/-- The multipart mapping produced by `generate_multipart_json`. -/
abbrev MultipartDict : Type := List (String × Part)

/-- The per-field encoding step of `generate_multipart_json`: the
`isinstance` chain over the field value. -/
def encodeField : PyVal → Except PyError PartData
  | .str s => .ok (.pv (.str s))
  | .bytes b => .ok (.pv (.bytes b))
  | .int i => .ok (.pv (.int i))
  | .float r => .ok (.pv (.float r))
  | .bool b => .ok (.pv (.bool b))
  | .list xs => .ok (.pv (.str (String.intercalate "," (xs.map pyStr))))
  | .tuple xs => .ok (.pv (.str (String.intercalate "," (xs.map pyStr))))
  | .dict kvs =>
    match jsonDumps (.dict kvs) with
    | some s => .ok (.pv (.str s))
    | none => .error (.typeError "Object is not JSON serializable")
  | v => .error (.valueError ("Unsupported type: <class " ++ squote ++ pyTypeName v ++ squote ++ ">"))

/-- One iteration of the field-encoding loop:
`d[name] = (None, <encoded value>, "text/plain")`. -/
def encodeFieldStep (d : MultipartDict) (p : String × PyVal) : Except PyError MultipartDict :=
  (encodeField p.2).map fun e => dictSet d p.1 (none, e, some "text/plain")

/-- The field-encoding loop of `generate_multipart_json`. -/
def encodeFields (kwargs : List (String × PyVal)) : Except PyError MultipartDict :=
  kwargs.foldlM encodeFieldStep ([] : MultipartDict)

/-- Whether `encodeField` succeeds on a value (its kind is supported and,
for dicts, `json.dumps` accepts the contents). -/
def encodable (v : PyVal) : Bool :=
  match encodeField v with
  | .ok _ => true
  | .error _ => false

/-- The per-kind field encoding in the words of the (amended) claim:
supported scalars pass through unchanged, sequences become the comma-joined
`str` of their elements, serializable dicts their JSON serialization. -/
def encodeValueClaim : PyVal → PartData
  | .list xs => .pv (.str (String.intercalate "," (xs.map pyStr)))
  | .tuple xs => .pv (.str (String.intercalate "," (xs.map pyStr)))
  | .dict kvs => .pv (.str ((jsonDumps (.dict kvs)).getD ""))
  | v => .pv v

/-- Whether a value is of one of the supported scalar kinds in the
`isinstance` chain. -/
def isScalar : PyVal → Bool
  | .str _ => true
  | .bytes _ => true
  | .int _ => true
  | .float _ => true
  | .bool _ => true
  | _ => false

/-- Whether a value is of a kind outside the `isinstance` chain entirely. -/
def unsupportedKind : PyVal → Bool
  | .pynone => true
  | .obj _ => true
  | _ => false

/-- `generate_multipart_json(filepath, **kwargs)` from `client/types.py`:
encode the keyword fields, then, when a file path is given, reject
directories, reject missing files, and append the opened file under the key
`"file"`. -/
def generate_multipart_json (fs : FileSystem) (filepath : Option String)
    (kwargs : List (String × PyVal)) : Except PyError MultipartDict := do
  let d ← encodeFields kwargs
  match filepath with
  | none => return d
  | some p =>
    if isDir fs p then
      .error (.valueError "Directory uploads are not supported")
    else if ¬ isFile fs p then
      .error (.fileNotFoundError ("Could not locate file at " ++ p))
    else
      return dictSet d "file" (some (baseName p), .fileHandle (readFile fs p), none)

/-! ## URL parsing (the fragment of urllib3 `parse_url` the client relies on)

`BaseClient.__init__` calls `requests.models.parse_url` and inspects only the
`path`, `query` and `fragment` components and the reassembled `url`.  The
parse is modelled by its documented splitting behaviour: an optional scheme
terminated by `"://"`, then the authority up to the first of `/`, `?`, `#`,
then the target split at the first `#` into pre-fragment and fragment, the
pre-fragment split at the first `?` into path and query.  (urllib3's case
and percent normalization is not modelled; it rewrites both compared inputs
identically and does not affect the stated properties.) -/
/-- Split off a scheme terminated by the first occurrence of `"://"`. -/
def splitScheme : List Char → Option (List Char × List Char)
  | [] => none
  | c :: rest =>
    if c = ':' ∧ rest.take 2 = ['/', '/'] then some ([], rest.drop 2)
    else
      match splitScheme rest with
      | some (sch, r) => some (c :: sch, r)
      | none => none

/-- Split a character list at the first occurrence of `c`: the part before,
and (when `c` occurs) the part after. -/
def splitAtChar (c : Char) : List Char → List Char × Option (List Char)
  | [] => ([], none)
  | x :: xs =>
    if x = c then ([], some xs)
    else
      let p := splitAtChar c xs
      (x :: p.1, p.2)

/-- A character ending the authority component. -/
def authorityStop (c : Char) : Bool := c == '/' || c == '?' || c == '#'

/-- The parsed URL components inspected by `BaseClient.__init__`. -/
structure UrlParts where
  scheme : Option (List Char)
  authority : List Char
  path : Option (List Char)
  query : Option (List Char)
  fragment : Option (List Char)
deriving DecidableEq, Repr

/-- The scheme component and the remainder after `"://"` (the whole input
when no scheme marker occurs). -/
def schemePart (cs : List Char) : Option (List Char) × List Char :=
  match splitScheme cs with
  | some (s, r) => (some s, r)
  | none => (none, cs)

/-- Split the request target after the authority into
`(path, query, fragment)`: everything after the first `#` is the fragment,
and the part before it splits at its first `?` into path and query.  An
empty path component is reported as absent. -/
def parseTarget (target : List Char) :
    Option (List Char) × Option (List Char) × Option (List Char) :=
  let pf := splitAtChar '#' target
  let pq := splitAtChar '?' pf.1
  (if pq.1 = [] then none else some pq.1, pq.2, pf.2)

/-- Parse a URL into the components `BaseClient.__init__` inspects. -/
def parseUrl (cs : List Char) : UrlParts :=
  let sr := schemePart cs
  let auth := sr.2.takeWhile fun c => !authorityStop c
  let target := sr.2.dropWhile fun c => !authorityStop c
  let pqf := parseTarget target
  ⟨sr.1, auth, pqf.1, pqf.2.1, pqf.2.2⟩

/-- Reassemble a parsed URL (urllib3 `Url.url`). -/
def UrlParts.url (u : UrlParts) : List Char :=
  (match u.scheme with
   | some s => s ++ [':', '/', '/']
   | none => [])
  ++ u.authority
  ++ u.path.getD []
  ++ (match u.query with
      | some q => '?' :: q
      | none => [])
  ++ (match u.fragment with
      | some f => '#' :: f
      | none => [])

/-- Python `str.rstrip("/")`: drop every trailing slash. -/
def rstripSlash (cs : List Char) : List Char :=
  (cs.reverse.dropWhile fun c => c = '/').reverse

/-! ## The base transport client (`client/base_client.py`) -/
/-- The HTTP verb enumeration `MethodType` from `client/types.py`. -/
inductive MethodType where
  | GET
  | POST
  | PUT
  | DELETE
  | PATCH
deriving DecidableEq, Repr

/-- The `requests.Session` state the embedded code touches: the default
header map (mutated by authentication) and the proxy map. -/
structure Session where
  headers : List (String × String)
  proxies : List (String × String)
deriving DecidableEq, Repr

/-- A freshly constructed session: no default headers of interest, no
proxies. -/
def Session.fresh : Session := ⟨[], []⟩

/-- The transport client: validated base URL plus its session. -/
structure BaseClient where
  base_url : List Char
  session : Session
deriving DecidableEq, Repr

/-- `BaseClient.__init__`: parse the base URL, assert that it has no
non-root path, no query and no fragment (in that order), store the
reassembled URL with trailing slashes stripped, and install the proxy map
when a proxy URL is given. -/
def BaseClient.make (base_url : List Char) (proxy_url : Option String) :
    Except PyError BaseClient :=
  let p := parseUrl base_url
  if ¬ (p.path = none ∨ p.path = some ['/']) then .error .assertionError
  else if p.query ≠ none then .error .assertionError
  else if p.fragment ≠ none then .error .assertionError
  else
    .ok
      { base_url := rstripSlash p.url,
        session :=
          { Session.fresh with
            proxies :=
              match proxy_url with
              | some pu => [("http", pu), ("https", pu)]
              | none => [] } }

/-- `BaseClient(base_url, proxy_url)` on a Lean string. -/
def BaseClient.ofUrl (base_url : String) (proxy_url : Option String) :
    Except PyError BaseClient :=
  BaseClient.make base_url.data proxy_url

/-! ## The network, clock and JWT oracles -/
/-- The body of a request as handed to `requests`. -/
inductive ReqBody where
  | empty
  | jsonBody (fields : List (String × PyVal))
  | filesBody (parts : MultipartDict)

/-- One HTTP request as issued by `BaseClient._request`: the verb, the full
URL (base URL plus route), the session default headers, and the keyword
options used by this client (query params, body, streaming flag). -/
structure HttpRequest where
  method : MethodType
  url : List Char
  headers : List (String × String)
  params : List (String × PyVal)
  body : ReqBody
  stream : Bool

/-- A raw HTTP response: status, `Content-Type` header, and the body as the
chunk list that `iter_content` yields. -/
structure HttpResponse where
  status : Nat
  contentType : Option String
  chunks : List String
deriving DecidableEq, Repr

/-- `response.content` / joined `iter_content`. -/
def HttpResponse.content (r : HttpResponse) : String := String.join r.chunks

/-- What the network does with a request: deliver a response (of any
status), or fail below HTTP (connection errors and the like). -/
inductive NetOutcome where
  | resp (r : HttpResponse)
  | conErr (tag : String)

/-- The ambient world: the network, the current POSIX time
(`datetime.now().timestamp()`), the decoded `exp` claim of a JWT
(`jwt.decode(..., verify_signature=False)`: `none` when decoding raises,
`some none` when the payload has no `exp` claim), and the environment and
interactive credential sources used by `login`. -/
structure World where
  net : HttpRequest → NetOutcome
  now : Int
  decodeExp : String → Option (Option Int)
  envUsername : Option String
  envPassword : Option String
  promptUsername : String
  promptPassword : String

/-- The request `BaseClient._request` hands to `session.request`. -/
def BaseClient.buildRequest (c : BaseClient) (m : MethodType) (route : String)
    (params : List (String × PyVal)) (body : ReqBody) (stream : Bool) : HttpRequest :=
  ⟨m, c.base_url ++ route.data, c.session.headers, params, body, stream⟩

/-- `BaseClient._request`: issue the request and `raise_for_status()`
(`requests` raises `HTTPError` for statuses 400–599). -/
def BaseClient.request (w : World) (c : BaseClient) (m : MethodType) (route : String)
    (params : List (String × PyVal)) (body : ReqBody) (stream : Bool) :
    Except PyError HttpResponse :=
  match w.net (c.buildRequest m route params body stream) with
  | .resp r =>
    if 400 ≤ r.status ∧ r.status < 600 then .error (.httpError r.status r.content)
    else .ok r
  | .conErr tag => .error (.transportError tag)

/-- Install or replace a session default header. -/
def setHeader (c : BaseClient) (k v : String) : BaseClient :=
  { c with session := { c.session with headers := dictSet c.session.headers k v } }

/-- Remove a session default header (`headers.pop(k)`). -/
def popHeader (c : BaseClient) (k : String) : BaseClient :=
  { c with session := { c.session with headers := dictPop c.session.headers k } }

/-! ## The authentication handler (`client/handlers/authentication_handler.py`) -/
/-- The client state and raised-or-returned outcome of an authentication
call (the handler mutates the shared session in place; here the mutated
client is returned alongside the result). -/
structure AuthOutcome where
  client : BaseClient
  result : Except PyError Unit

/-- The client with `Authorization: Bearer <token>` installed. -/
def withBearer (c : BaseClient) (token : String) : BaseClient :=
  setHeader c "Authorization" ("Bearer " ++ token)

/-- `AuthenticationHandler._validate_and_set_token`: decode the token and
fail if its `exp` claim is in the past; save the previous `Authorization`
header, install `Bearer <token>`, probe `/api/auth/user` then
`/api/auth/admin` (each probe failure by `requests.HTTPError` falls through
to the next step; any other error propagates); if both probes fail, restore
the saved header (or pop it if none was saved) and raise
`ValueError("Invalid token")`. -/
def validate_and_set_token (w : World) (c : BaseClient) (token : String) : AuthOutcome :=
  match w.decodeExp token with
  | none => ⟨c, .error (.valueError "Invalid token: decode failed")⟩
  | some none => ⟨c, .error (.keyError "exp")⟩
  | some (some exp) =>
    if exp < w.now then ⟨c, .error (.valueError "Token has expired")⟩
    else
      let old := dictGet c.session.headers "Authorization"
      let c1 := withBearer c token
      match c1.request w .GET "/api/auth/user" [] .empty false with
      | .ok _ => ⟨c1, .ok ()⟩
      | .error (.httpError _ _) =>
        match c1.request w .GET "/api/auth/admin" [] .empty false with
        | .ok _ => ⟨c1, .ok ()⟩
        | .error (.httpError _ _) =>
          let c2 :=
            match old with
            | some o => setHeader c1 "Authorization" o
            | none => popHeader c1 "Authorization"
          ⟨c2, .error (.valueError "Invalid token")⟩
        | .error e => ⟨c1, .error e⟩
      | .error e => ⟨c1, .error e⟩

/-- Python falsy-or for optional strings (`a or b`: empty strings are
falsy). -/
def orFalsy (a b : Option String) : Option String :=
  match a with
  | some s => if s = "" then b else some s
  | none => b

/-- `AuthenticationHandler.login`: with a token, validate and install it;
otherwise resolve username and password from arguments, environment
variables and interactive prompts, POST them to `/api/auth/login`, and
validate the decoded response body as the token. -/
def login (w : World) (c : BaseClient)
    (username password token : Option String) : AuthOutcome :=
  match token with
  | some t => validate_and_set_token w c t
  | none =>
    let u :=
      match orFalsy username w.envUsername with
      | some s => s
      | none => w.promptUsername
    let p :=
      match orFalsy password w.envPassword with
      | some s => s
      | none => w.promptPassword
    match c.request w .POST "/api/auth/login"
        [] (.jsonBody [("username", .str u), ("password", .str p)]) false with
    | .ok r => validate_and_set_token w c r.content
    | .error e => ⟨c, .error e⟩

/-- `AuthenticationHandler.register`: a stateless POST of the registration
fields to `/api/auth/register`. -/
def registerUser (w : World) (c : BaseClient)
    (username email password first_name last_name : String) : Except PyError Unit :=
  (c.request w .POST "/api/auth/register" []
    (.jsonBody [("username", .str username), ("emailAddress", .str email),
      ("password", .str password), ("firstName", .str first_name),
      ("lastName", .str last_name)]) false).map fun _ => ()

/-! ## Enumerations and the checkpoint / static handlers -/
/-- The `FileType` enumeration from `client/types.py`. -/
inductive FileType where
  | ONNX
  | KERAS
  | HF_TEXT
  | HF_IT2T
deriving DecidableEq, Repr

/-- The wire value of a `FileType` member. -/
def FileType.value : FileType → String
  | .ONNX => "ONNX"
  | .KERAS => "KERAS"
  | .HF_TEXT => "HF_TEXT_GENERATION"
  | .HF_IT2T => "HF_IMAGE_TEXT_TO_TEXT"

/-- A `str | FileType` parameter. -/
inductive FormatArg where
  | fmt (f : FileType)
  | strArg (s : String)
deriving DecidableEq, Repr

/-- `FileType(x)`: identity on members, value lookup on strings,
`ValueError` on anything else. -/
def coerceFileType : FormatArg → Except PyError FileType
  | .fmt f => .ok f
  | .strArg s =>
    if s = "ONNX" then .ok .ONNX
    else if s = "KERAS" then .ok .KERAS
    else if s = "HF_TEXT_GENERATION" then .ok .HF_TEXT
    else if s = "HF_IMAGE_TEXT_TO_TEXT" then .ok .HF_IT2T
    else .error (.valueError (squote ++ s ++ squote ++ " is not a valid FileType"))

/-- Modelled from the spec: the `Comparison` enumeration imported by the
static handler is missing from the sources (`client/types.py` defines only
`ComparisonType`); it is modelled with the member names used by the handler
and its documentation, `PREVIOUS` (the default) and `ALL`. -/
inductive Comparison where
  | PREVIOUS
  | ALL
deriving DecidableEq, Repr

/-- The wire value of a `Comparison` member (modelled from the spec, see
`Comparison`). -/
def Comparison.value : Comparison → String
  | .PREVIOUS => "PREVIOUS"
  | .ALL => "ALL"

/-- A `Comparison | str` parameter. -/
inductive ComparisonArg where
  | cmp (c : Comparison)
  | strArg (s : String)
deriving DecidableEq, Repr

/-- `Comparison(x)` (modelled from the spec, see `Comparison`). -/
def coerceComparison : ComparisonArg → Except PyError Comparison
  | .cmp c => .ok c
  | .strArg s =>
    if s = "PREVIOUS" then .ok .PREVIOUS
    else if s = "ALL" then .ok .ALL
    else .error (.valueError (squote ++ s ++ squote ++ " is not a valid Comparison"))

/-- `CheckpointHandler.add_checkpoint`, up to the outgoing multipart body:
reject directories and missing files, build the base dict
`{projectId, format}`, merge the extension kwargs, then write `fileName`
and `tag` from the named parameters when given, and hand the result with
the file path to the multipart builder. -/
def add_checkpoint (fs : FileSystem) (project_id : String) (file_path : String)
    (model_format : FormatArg) (checkpoint_name tag : Option String)
    (kwargs : List (String × PyVal)) : Except PyError MultipartDict :=
  if isDir fs file_path then
    .error (.valueError ("File " ++ file_path ++ " is a directory."
      ++ " If this is a checkpoint, please tar it first."))
  else if ¬ isFile fs file_path then
    .error (.fileNotFoundError ("File " ++ file_path ++ " not found"))
  else do
    let ft ← coerceFileType model_format
    let data := [("projectId", PyVal.str project_id), ("format", PyVal.str ft.value)]
    let data := dictUpdate data kwargs
    let data :=
      match checkpoint_name with
      | some n => dictSet data "fileName" (.str n)
      | none => data
    let data :=
      match tag with
      | some t => dictSet data "tag" (.str t)
      | none => data
    generate_multipart_json fs (some file_path) data

/-- `StaticHandler.static_analysis`, up to the outgoing JSON body: build
`{projectId, fileId, comparisonType}`, add `weightNames`/`biasNames` when
given, then merge the extension kwargs last. -/
def static_analysis (project_id checkpoint_id : String) (comparison : ComparisonArg)
    (weight_names bias_names : Option (List String))
    (kwargs : List (String × PyVal)) : Except PyError (List (String × PyVal)) := do
  let cmp ← coerceComparison comparison
  let data := [("projectId", PyVal.str project_id), ("fileId", PyVal.str checkpoint_id),
    ("comparisonType", PyVal.str cmp.value)]
  let data :=
    match weight_names with
    | some ws => dictSet data "weightNames" (.list (ws.map .str))
    | none => data
  let data :=
    match bias_names with
    | some bs => dictSet data "biasNames" (.list (bs.map .str))
    | none => data
  return dictUpdate data kwargs

/-! ## Checkpoint downloads (`client/handlers/checkpoint_handler.py`) -/
/-- The ancestor directories of a path, shortest first. -/
def ancestorPaths (p : String) : List String :=
  let comps := p.splitOn "/"
  (List.range comps.length).filterMap fun i =>
    if i = 0 then none else some (String.intercalate "/" (comps.take i))

/-- `path.parent.mkdir(parents=True, exist_ok=True)`: create the missing
ancestor directories of `p`. -/
def mkdirParents (fs : FileSystem) (p : String) : FileSystem :=
  (ancestorPaths p).foldl
    (fun f a => match f a with
      | none => fsSet f a .dir
      | some _ => f)
    fs

/-- The filesystem, warnings and raised-or-returned result of a download
call. -/
structure DownloadOutcome where
  fs : FileSystem
  sent : List HttpRequest
  warnings : List String
  result : Except PyError Unit

/-- The octet-stream warning text from the checkpoint handler. -/
def octetWarning : String :=
  "The response is not an octet stream. An error may have occurred."

/-- The shared body of the two download methods: guard against an existing
destination unless `overwrite`, create parent directories, open the
destination for binary writing (creating or truncating it), then issue the
streamed GET and write the non-empty chunks; warn when the `Content-Type`
is not `application/octet-stream`. -/
def downloadTo (w : World) (fs : FileSystem) (c : BaseClient) (route : String)
    (params : List (String × PyVal)) (path : String) (overwrite : Bool) :
    DownloadOutcome :=
  if (fs path).isSome ∧ ¬ overwrite = true then
    ⟨fs, [], [], .error (.fileExistsError ("File " ++ path ++ " already exists"))⟩
  else
    let fs1 := fsSet (mkdirParents fs path) path (.file "")
    let req := c.buildRequest .GET route params .empty true
    match c.request w .GET route params .empty true with
    | .ok r =>
      let warns := if r.contentType ≠ some "application/octet-stream" then [octetWarning] else []
      ⟨fsSet fs1 path (.file (String.join (r.chunks.filter fun ch => ch ≠ ""))),
        [req], warns, .ok ()⟩
    | .error e => ⟨fs1, [req], [], .error e⟩

/-- `CheckpointHandler.download_checkpoint`. -/
def download_checkpoint (w : World) (fs : FileSystem) (c : BaseClient)
    (project_id checkpoint_id : String) (new_checkpoint_path : String)
    (overwrite : Bool) (kwargs : List (String × PyVal)) : DownloadOutcome :=
  downloadTo w fs c ("/project/file/" ++ checkpoint_id)
    (dictUpdate [("projectId", .str project_id)] kwargs) new_checkpoint_path overwrite

/-- `CheckpointHandler.download_all_checkpoints`. -/
def download_all_checkpoints (w : World) (fs : FileSystem) (c : BaseClient)
    (project_id : String) (zip_file_path : String)
    (overwrite : Bool) (kwargs : List (String × PyVal)) : DownloadOutcome :=
  downloadTo w fs c "/project/file"
    (dictUpdate [("projectId", .str project_id)] kwargs) zip_file_path overwrite

/-! ## The facade client (`client/authentrics_client.py`) -/
/-- A handler instance: a stateless adapter holding only the reference to
its parent client. -/
structure Handler where
  parent : BaseClient
deriving DecidableEq, Repr

/-- The handler families appearing in the repository (the `result` handler
exists in `client/handlers/result_handler.py` but, like `base_model`, is
not part of the facade). -/
inductive HandlerKind where
  | admin
  | auth
  | checkpoint
  | dynamic
  | membership
  | project
  | staticAnalysis
  | user
  | result
deriving DecidableEq, Repr

/-- The facade client: the underlying transport client plus the handler
instances created by `AuthentricsClient.__init__`. -/
structure AuthentricsClient where
  base : BaseClient
  adminH : Handler
  authH : Handler
  checkpointH : Handler
  dynamicH : Handler
  membershipH : Handler
  projectH : Handler
  staticH : Handler
  userH : Handler
deriving DecidableEq, Repr

/-- `AuthentricsClient.__init__`: construct the transport client, tag the
session with the `clientName: authrx-client` header, and create one
instance of each of the admin, authentication, checkpoint, dynamic,
membership, project, static and user handlers, each holding the client
reference. -/
def mkAuthentricsClient (base_url : String) (proxy_url : Option String) :
    Except PyError AuthentricsClient :=
  (BaseClient.ofUrl base_url proxy_url).map fun c0 =>
    let c := setHeader c0 "clientName" "authrx-client"
    ⟨c, ⟨c⟩, ⟨c⟩, ⟨c⟩, ⟨c⟩, ⟨c⟩, ⟨c⟩, ⟨c⟩, ⟨c⟩⟩

/-- The `admin` read accessor. -/
def AuthentricsClient.admin (a : AuthentricsClient) : Handler := a.adminH

/-- The `auth` read accessor. -/
def AuthentricsClient.auth (a : AuthentricsClient) : Handler := a.authH

/-- The `checkpoint` read accessor. -/
def AuthentricsClient.checkpoint (a : AuthentricsClient) : Handler := a.checkpointH

/-- The `dynamic` read accessor. -/
def AuthentricsClient.dynamic (a : AuthentricsClient) : Handler := a.dynamicH

/-- The `project` read accessor. -/
def AuthentricsClient.project (a : AuthentricsClient) : Handler := a.projectH

/-- The `static` read accessor. -/
def AuthentricsClient.staticAccessor (a : AuthentricsClient) : Handler := a.staticH

/-- The `user` read accessor. -/
def AuthentricsClient.user (a : AuthentricsClient) : Handler := a.userH

/-- The handler kinds instantiated by `AuthentricsClient.__init__`
(lines 38–45 of `client/authentrics_client.py`). -/
def instantiatedHandlerKinds : List HandlerKind :=
  [.admin, .auth, .checkpoint, .dynamic, .membership, .project, .staticAnalysis, .user]

/-- The handler kinds exposed through `@property` read accessors
(lines 47–82 of `client/authentrics_client.py`): every instantiated kind
except `membership`. -/
def accessorHandlerKinds : List HandlerKind :=
  [.admin, .auth, .checkpoint, .dynamic, .project, .staticAnalysis, .user]

theorem dictGet_dictSet_self {α : Type} (d : List (String × α)) (k : String) (v : α) :
    dictGet (dictSet d k v) k = some v := by
  induction d with
  | nil => simp [dictSet, dictGet]
  | cons p rest ih =>
    obtain ⟨k', v'⟩ := p
    by_cases h : k' = k <;> simp [dictSet, dictGet, h, ih]

theorem dictGet_dictSet_ne {α : Type} (d : List (String × α)) (k k' : String) (v : α)
    (h : k' ≠ k) : dictGet (dictSet d k v) k' = dictGet d k' := by
  induction d with
  | nil => simp [dictSet, dictGet, Ne.symm h]
  | cons p rest ih =>
    obtain ⟨k₀, v₀⟩ := p
    by_cases h₀ : k₀ = k
    · subst h₀
      simp [dictSet, dictGet, Ne.symm h]
    · simp [dictSet, dictGet, h₀, ih]

theorem dictPop_dictSet_of_absent {α : Type} (d : List (String × α)) (k : String) (v : α)
    (h : dictGet d k = none) : dictPop (dictSet d k v) k = d := by
  induction d with
  | nil => simp [dictSet, dictPop]
  | cons p rest ih =>
    obtain ⟨k', v'⟩ := p
    by_cases h' : k' = k
    · simp [dictGet, h'] at h
    · simp [dictGet, h'] at h
      simp [dictSet, dictPop, h', ih h]

theorem dictGet_eq_none_of_not_mem {α : Type} (d : List (String × α)) (k : String)
    (h : k ∉ d.map Prod.fst) : dictGet d k = none := by
  induction d with
  | nil => rfl
  | cons p rest ih =>
    obtain ⟨k', v'⟩ := p
    simp only [List.map_cons, List.mem_cons] at h
    push_neg at h
    simp [dictGet, Ne.symm h.1, ih h.2]

theorem dictGet_dictUpdate_absent {α : Type} (e : List (String × α)) (k : String)
    (h : k ∉ e.map Prod.fst) (d : List (String × α)) :
    dictGet (dictUpdate d e) k = dictGet d k := by
  induction e generalizing d with
  | nil => rfl
  | cons p rest ih =>
    obtain ⟨k', v'⟩ := p
    simp only [List.map_cons, List.mem_cons] at h
    push_neg at h
    have step : dictUpdate d ((k', v') :: rest) = dictUpdate (dictSet d k' v') rest := rfl
    rw [step, ih h.2, dictGet_dictSet_ne d k' k v' h.1]

theorem dictGet_dictUpdate_mem {α : Type} (e : List (String × α)) (k : String) (v : α)
    (hnd : (e.map Prod.fst).Nodup) (h : dictGet e k = some v) (d : List (String × α)) :
    dictGet (dictUpdate d e) k = some v := by
  induction e generalizing d with
  | nil => simp [dictGet] at h
  | cons p rest ih =>
    obtain ⟨k', v'⟩ := p
    simp only [List.map_cons, List.nodup_cons] at hnd
    have step : dictUpdate d ((k', v') :: rest) = dictUpdate (dictSet d k' v') rest := rfl
    by_cases hk : k' = k
    · subst hk
      have h' : v' = v := by simpa [dictGet] using h
      subst h'
      rw [step, dictGet_dictUpdate_absent rest k' hnd.1, dictGet_dictSet_self]
    · simp only [dictGet, if_neg hk] at h
      rw [step, ih hnd.2 h]

theorem dictGet_map_value {α β : Type} (f : α → β) (d : List (String × α)) (k : String) :
    dictGet (d.map fun p => (p.1, f p.2)) k = (dictGet d k).map f := by
  induction d with
  | nil => rfl
  | cons p rest ih =>
    obtain ⟨k', v'⟩ := p
    by_cases h : k' = k <;> simp [dictGet, h, ih]

/-! ## Parser lemmas for the URL normalization property -/
theorem splitScheme_length {cs : List Char} {p : List Char × List Char}
    (h : splitScheme cs = some p) : 3 ≤ cs.length := by
  induction cs generalizing p with
  | nil => simp [splitScheme] at h
  | cons c rest ih =>
    rw [splitScheme] at h
    split at h
    · next hc =>
      have hlen := congrArg List.length hc.2
      simp [List.length_take] at hlen
      simp only [List.length_cons]
      omega
    · revert h
      cases hs : splitScheme rest with
      | none => intro h; exact absurd h (by simp)
      | some q =>
        intro _
        have := ih hs
        simp only [List.length_cons]
        omega

theorem splitScheme_append {cs : List Char} {sch rest : List Char} (x : Char)
    (h : splitScheme cs = some (sch, rest)) :
    splitScheme (cs ++ [x]) = some (sch, rest ++ [x]) := by
  induction cs generalizing sch rest with
  | nil => simp [splitScheme] at h
  | cons c cs' ih =>
    rw [splitScheme] at h
    rw [List.cons_append, splitScheme]
    split at h
    · next hc =>
      have hlen : 2 ≤ cs'.length := by
        have := congrArg List.length hc.2
        simp [List.length_take] at this
        omega
      rw [if_pos ⟨hc.1, by rw [List.take_append_of_le_length hlen]; exact hc.2⟩]
      have hdrop : (cs' ++ [x]).drop 2 = cs'.drop 2 ++ [x] :=
        List.drop_append_of_le_length hlen
      simp only [Option.some.injEq, Prod.mk.injEq] at h
      rw [hdrop, h.1, h.2]
    · next hc =>
      revert h
      cases hs : splitScheme cs' with
      | none => intro h; exact absurd h (by simp)
      | some q =>
        intro h
        obtain ⟨s', r'⟩ := q
        simp only [Option.some.injEq, Prod.mk.injEq] at h
        obtain ⟨hsch, hrest⟩ := h
        subst hsch
        subst hrest
        have hlen : 3 ≤ cs'.length := splitScheme_length hs
        have hcond : ¬ (c = ':' ∧ (cs' ++ [x]).take 2 = ['/', '/']) := by
          rw [List.take_append_of_le_length (by omega)]
          exact hc
        rw [if_neg hcond, ih hs]

theorem splitScheme_none_append {cs : List Char}
    (h : splitScheme cs = none) (hns : ∀ c ∈ cs, c ≠ '/') :
    splitScheme (cs ++ ['/']) = none := by
  induction cs with
  | nil => rfl
  | cons c cs' ih =>
    rw [splitScheme] at h
    rw [List.cons_append, splitScheme]
    split at h
    · simp at h
    · next hc =>
      revert h
      cases hs : splitScheme cs' with
      | some q => intro h; exact absurd h (by simp)
      | none =>
        intro _
        have hcond : ¬ (c = ':' ∧ (cs' ++ ['/']).take 2 = ['/', '/']) := by
          match cs' with
          | [] => simp
          | [y] =>
            have hy : y ≠ '/' := hns y (by simp)
            simp [hy]
          | y :: z :: tl =>
            intro hcc
            exact hc ⟨hcc.1, by simpa using hcc.2⟩
        rw [if_neg hcond]
        rw [ih hs fun d hd => hns d (List.mem_cons_of_mem c hd)]

theorem splitAtChar_fst_of_snd_none {c : Char} {l : List Char}
    (h : (splitAtChar c l).2 = none) : (splitAtChar c l).1 = l := by
  induction l with
  | nil => rfl
  | cons x xs ih =>
    by_cases hx : x = c
    · exfalso
      simp [splitAtChar, hx] at h
    · have h' : (splitAtChar c xs).2 = none := by
        simpa [splitAtChar, hx] using h
      simp [splitAtChar, hx, ih h']

theorem takeWhile_append_all {p : Char → Bool} {l : List Char} {a : Char}
    (hl : ∀ x ∈ l, p x = true) (ha : p a = false) :
    (l ++ [a]).takeWhile p = l ∧ (l ++ [a]).dropWhile p = [a] := by
  induction l with
  | nil => simp [List.takeWhile, List.dropWhile, ha]
  | cons x xs ih =>
    have hx : p x = true := hl x (by simp)
    have ihh := ih fun y hy => hl y (List.mem_cons_of_mem x hy)
    simp [List.takeWhile, List.dropWhile, hx, ihh.1, ihh.2]

theorem parseTarget_nil_of_all_none {t : List Char}
    (h1 : (parseTarget t).1 = none) (h2 : (parseTarget t).2.1 = none)
    (h3 : (parseTarget t).2.2 = none) : t = [] := by
  simp only [parseTarget] at h1 h2 h3
  have e1 : (splitAtChar '#' t).1 = t := splitAtChar_fst_of_snd_none h3
  rw [e1] at h1 h2
  have e2 : (splitAtChar '?' t).1 = t := splitAtChar_fst_of_snd_none h2
  rw [e2] at h1
  by_cases ht : t = []
  · exact ht
  · rw [if_neg ht] at h1
    exact absurd h1 (by simp)

/-- Appending a single trailing slash to a URL that parses with no path, no
query and no fragment yields the same components with path `"/"`. -/
theorem parseUrl_append_slash {cs : List Char}
    (hp : (parseUrl cs).path = none) (hq : (parseUrl cs).query = none)
    (hf : (parseUrl cs).fragment = none) :
    parseUrl (cs ++ ['/']) = { parseUrl cs with path := some ['/'] } := by
  have hslash : (fun c => !authorityStop c) '/' = false := by decide
  cases hs : splitScheme cs with
  | some pr =>
    obtain ⟨sch, rest⟩ := pr
    have hsr : schemePart cs = (some sch, rest) := by simp [schemePart, hs]
    have hsr' : schemePart (cs ++ ['/']) = (some sch, rest ++ ['/']) := by
      simp [schemePart, splitScheme_append '/' hs]
    simp only [parseUrl, hsr] at hp hq hf
    have htarget : (rest.dropWhile fun c => !authorityStop c) = [] :=
      parseTarget_nil_of_all_none hp hq hf
    have hall : ∀ x ∈ rest, (fun c => !authorityStop c) x = true := by
      intro x hx
      exact List.dropWhile_eq_nil_iff.mp htarget x hx
    have htake : (rest.takeWhile fun c => !authorityStop c) = rest :=
      List.takeWhile_eq_self_iff.mpr hall
    have hpair := takeWhile_append_all hall hslash
    simp only [parseUrl, hsr, hsr', htake, htarget, hpair.1, hpair.2]
    rfl
  | none =>
    have hsr : schemePart cs = (none, cs) := by simp [schemePart, hs]
    simp only [parseUrl, hsr] at hp hq hf
    have htarget : (cs.dropWhile fun c => !authorityStop c) = [] :=
      parseTarget_nil_of_all_none hp hq hf
    have hall : ∀ x ∈ cs, (fun c => !authorityStop c) x = true := by
      intro x hx
      exact List.dropWhile_eq_nil_iff.mp htarget x hx
    have hnoslash : ∀ c ∈ cs, c ≠ '/' := by
      intro c hc hceq
      have := hall c hc
      rw [hceq] at this
      simp [authorityStop] at this
    have hs' : splitScheme (cs ++ ['/']) = none := splitScheme_none_append hs hnoslash
    have hsr' : schemePart (cs ++ ['/']) = (none, cs ++ ['/']) := by
      simp [schemePart, hs']
    have htake : (cs.takeWhile fun c => !authorityStop c) = cs :=
      List.takeWhile_eq_self_iff.mpr hall
    have hpair := takeWhile_append_all hall hslash
    simp only [parseUrl, hsr, hsr', htake, htarget, hpair.1, hpair.2]
    rfl

/-- Reassembling with path `"/"` appends one slash to the reassembly with no
path, when query and fragment are absent. -/
theorem url_with_slash (u : UrlParts) (hq : u.query = none) (hf : u.fragment = none)
    (hp : u.path = none) :
    ({ u with path := some ['/'] } : UrlParts).url = u.url ++ ['/'] := by
  simp [UrlParts.url, hq, hf, hp]

theorem rstripSlash_append_slash (l : List Char) :
    rstripSlash (l ++ ['/']) = rstripSlash l := by
  simp [rstripSlash, List.dropWhile]

/-- Claim C7: constructing a client from a base URL with and without a
trailing slash stores an identical base URL (the reassembled URL with
trailing slashes stripped), and any URL parsing with a non-root path, a
query string, or a fragment is rejected (the failed `assert` in
`BaseClient.__init__`, the spec's `ConfigurationError`). -/
theorem rstripSlash_url_slash (sch : Option (List Char)) (auth : List Char) :
    rstripSlash (UrlParts.url ⟨sch, auth, some ['/'], none, none⟩) =
    rstripSlash (UrlParts.url ⟨sch, auth, none, none, none⟩) := by
  have h1 : (UrlParts.url ⟨sch, auth, some ['/'], none, none⟩) =
      (UrlParts.url ⟨sch, auth, none, none, none⟩) ++ ['/'] := by
    simp [UrlParts.url]
  rw [h1, rstripSlash_append_slash]

theorem url_normalization :
    (∀ (s : String) (proxy : Option String),
      (parseUrl s.data).path = none → (parseUrl s.data).query = none →
      (parseUrl s.data).fragment = none →
      BaseClient.ofUrl (s ++ "/") proxy = BaseClient.ofUrl s proxy) ∧
    (∀ (s : String) (proxy : Option String),
      (¬ ((parseUrl s.data).path = none ∨ (parseUrl s.data).path = some ['/']) ∨
        (parseUrl s.data).query ≠ none ∨ (parseUrl s.data).fragment ≠ none) →
      BaseClient.ofUrl s proxy = .error .assertionError) := by
  constructor
  · intro s proxy hp hq hf
    have hdata : (s ++ "/").data = s.data ++ ['/'] := by
      simp [String.data_append]
    rw [BaseClient.ofUrl, BaseClient.ofUrl, hdata, BaseClient.make.eq_def,
      BaseClient.make.eq_def, parseUrl_append_slash hp hq hf]
    cases hu : parseUrl s.data with
    | mk sch auth p q f =>
      rw [hu] at hp hq hf
      have hp' : p = none := hp
      have hq' : q = none := hq
      have hf' : f = none := hf
      subst hp'
      subst hq'
      subst hf'
      simp only []
      rw [rstripSlash_url_slash sch auth]
      simp
  · intro s proxy hbad
    rw [BaseClient.ofUrl, BaseClient.make.eq_def]
    rcases hbad with hbad | hbad | hbad
    · rw [if_pos hbad]
    · by_cases hpath : (parseUrl s.data).path = none ∨ (parseUrl s.data).path = some ['/']
      · rw [if_neg (not_not_intro hpath), if_pos hbad]
      · rw [if_pos hpath]
    · by_cases hpath : (parseUrl s.data).path = none ∨ (parseUrl s.data).path = some ['/']
      · by_cases hq : (parseUrl s.data).query ≠ none
        · rw [if_neg (not_not_intro hpath), if_pos hq]
        · rw [if_neg (not_not_intro hpath), if_neg hq, if_pos hbad]
      · rw [if_pos hpath]

/-- Witness for C7 at concrete URLs. -/
theorem url_normalization_witness :
    BaseClient.ofUrl ("https://api.example.com" ++ "/") none =
      BaseClient.ofUrl "https://api.example.com" none ∧
    BaseClient.ofUrl "https://api.example.com/v1" none = .error .assertionError ∧
    BaseClient.ofUrl "https://api.example.com?q=1" none = .error .assertionError ∧
    BaseClient.ofUrl "https://api.example.com#frag" none = .error .assertionError :=
  ⟨url_normalization.1 "https://api.example.com" none rfl rfl rfl,
   url_normalization.2 "https://api.example.com/v1" none (by decide),
   url_normalization.2 "https://api.example.com?q=1" none (by decide),
   url_normalization.2 "https://api.example.com#frag" none (by decide)⟩

/-! ## Lemmas about the field-encoding loop -/
theorem okBind {ε α β : Type} (a : α) (f : α → Except ε β) :
    (Except.ok a >>= f : Except ε β) = f a := rfl

theorem errBind {ε α β : Type} (e : ε) (f : α → Except ε β) :
    (Except.error e >>= f : Except ε β) = Except.error e := rfl

theorem dictSet_append_of_not_mem {α : Type} {d : List (String × α)} {k : String} (v : α)
    (h : k ∉ d.map Prod.fst) : dictSet d k v = d ++ [(k, v)] := by
  induction d with
  | nil => rfl
  | cons p rest ih =>
    obtain ⟨k', v'⟩ := p
    simp only [List.map_cons, List.mem_cons] at h
    push_neg at h
    simp [dictSet, Ne.symm h.1, ih h.2]

theorem keys_dictSet_of_mem {α : Type} {d : List (String × α)} {k : String} (v : α)
    (h : k ∈ d.map Prod.fst) : (dictSet d k v).map Prod.fst = d.map Prod.fst := by
  induction d with
  | nil => simp at h
  | cons p rest ih =>
    obtain ⟨k', v'⟩ := p
    by_cases hk : k' = k
    · simp [dictSet, hk]
    · simp only [List.map_cons, List.mem_cons] at h
      rcases h with h | h
      · exact absurd h.symm hk
      · simp [dictSet, hk, ih h]

theorem nodup_keys_dictSet {α : Type} {d : List (String × α)} {k : String} (v : α)
    (h : (d.map Prod.fst).Nodup) : ((dictSet d k v).map Prod.fst).Nodup := by
  by_cases hm : k ∈ d.map Prod.fst
  · rw [keys_dictSet_of_mem v hm]
    exact h
  · rw [dictSet_append_of_not_mem v hm]
    simp only [List.map_append, List.map_cons, List.map_nil]
    rw [List.nodup_append]
    refine ⟨h, List.nodup_singleton _, ?_⟩
    intro a ha hax
    rw [List.mem_singleton] at hax
    exact hm (hax ▸ ha)

theorem nodup_keys_dictUpdate {α : Type} (e d : List (String × α))
    (h : (d.map Prod.fst).Nodup) : ((dictUpdate d e).map Prod.fst).Nodup := by
  induction e generalizing d with
  | nil => exact h
  | cons p rest ih =>
    have step : dictUpdate d (p :: rest) = dictUpdate (dictSet d p.1 p.2) rest := rfl
    rw [step]
    exact ih _ (nodup_keys_dictSet p.2 h)

theorem encodeField_ok_of_encodable {v : PyVal} (h : encodable v = true) :
    encodeField v = .ok (encodeValueClaim v) := by
  cases v with
  | dict kvs =>
    rw [encodable] at h
    revert h
    cases hj : jsonDumps (.dict kvs) with
    | none => simp [encodeField, hj]
    | some s => simp [encodeField, encodeValueClaim, hj]
  | _ => first
    | rfl
    | (rw [encodable] at h; simp [encodeField] at h)

theorem foldlM_encode_eq (kwargs : List (String × PyVal)) :
    ∀ d : MultipartDict,
      (kwargs.map Prod.fst).Nodup →
      (∀ p ∈ kwargs, encodable p.2 = true) →
      (∀ kk ∈ kwargs.map Prod.fst, kk ∉ d.map Prod.fst) →
      kwargs.foldlM encodeFieldStep d =
        .ok (d ++ kwargs.map fun p =>
          (p.1, ((none : Option String), encodeValueClaim p.2, some "text/plain"))) := by
  induction kwargs with
  | nil =>
    intro d _ _ _
    simp [List.foldlM_nil, pure, Except.pure]
  | cons p rest ih =>
    intro d hnd henc hdisj
    obtain ⟨k, v⟩ := p
    simp only [List.map_cons, List.nodup_cons] at hnd
    have henc0 : encodable v = true := henc (k, v) (by simp)
    have hstep : encodeFieldStep d (k, v) =
        .ok (dictSet d k ((none : Option String), encodeValueClaim v, some "text/plain")) := by
      rw [encodeFieldStep, encodeField_ok_of_encodable henc0]
      rfl
    have happ : dictSet d k ((none : Option String), encodeValueClaim v, some "text/plain") =
        d ++ [(k, ((none : Option String), encodeValueClaim v, some "text/plain"))] :=
      dictSet_append_of_not_mem _ (hdisj k (by simp))
    rw [List.foldlM_cons, hstep, okBind, happ]
    have hrec := ih (d ++ [(k, ((none : Option String), encodeValueClaim v, some "text/plain"))])
      hnd.2 (fun q hq => henc q (List.mem_cons_of_mem _ hq))
      (by
        intro kk hkk
        simp only [List.map_append, List.map_cons, List.map_nil, List.mem_append,
          List.mem_singleton]
        push_neg
        refine ⟨hdisj kk (by simp [hkk]), ?_⟩
        intro hkkk
        exact hnd.1 (hkkk ▸ hkk))
    rw [hrec, List.append_assoc]
    rfl

theorem encodeFields_eq_map (kwargs : List (String × PyVal))
    (hnd : (kwargs.map Prod.fst).Nodup) (henc : ∀ p ∈ kwargs, encodable p.2 = true) :
    encodeFields kwargs =
      .ok (kwargs.map fun p =>
        (p.1, ((none : Option String), encodeValueClaim p.2, some "text/plain"))) := by
  have h := foldlM_encode_eq kwargs [] hnd henc (by simp)
  rw [encodeFields, h]
  simp

theorem foldlM_encode_error (pre : List (String × PyVal)) :
    ∀ d : MultipartDict, (∀ p ∈ pre, encodable p.2 = true) →
      ∀ (n : String) (v : PyVal) (rest : List (String × PyVal)) (err : PyError),
        encodeField v = .error err →
        (pre ++ (n, v) :: rest).foldlM encodeFieldStep d = .error err := by
  induction pre with
  | nil =>
    intro d _ n v rest err herr
    simp only [List.nil_append, List.foldlM_cons]
    have : encodeFieldStep d (n, v) = .error err := by
      rw [encodeFieldStep, herr]
      rfl
    rw [this, errBind]
  | cons p pre' ih =>
    intro d henc n v rest err herr
    obtain ⟨k, w⟩ := p
    have henc0 : encodable w = true := henc (k, w) (by simp)
    have hok : encodeField w = .ok (encodeValueClaim w) := encodeField_ok_of_encodable henc0
    simp only [List.cons_append, List.foldlM_cons]
    have : encodeFieldStep d (k, w) =
        .ok (dictSet d k ((none : Option String), encodeValueClaim w, some "text/plain")) := by
      rw [encodeFieldStep, hok]
      rfl
    rw [this, okBind]
    exact ih _ (fun q hq => henc q (List.mem_cons_of_mem _ hq)) n v rest err herr

theorem encodable_of_foldlM_ok (kwargs : List (String × PyVal)) :
    ∀ (d m : MultipartDict), kwargs.foldlM encodeFieldStep d = .ok m →
      ∀ p ∈ kwargs, encodable p.2 = true := by
  induction kwargs with
  | nil =>
    intro d m _ p hp
    simp at hp
  | cons q rest ih =>
    intro d m hok p hp
    obtain ⟨k, v⟩ := q
    rw [List.foldlM_cons] at hok
    cases he : encodeField v with
    | error err =>
      have hstep : encodeFieldStep d (k, v) = .error err := by
        rw [encodeFieldStep, he]
        rfl
      rw [hstep, errBind] at hok
      exact absurd hok (by simp)
    | ok e =>
      have hstep : encodeFieldStep d (k, v) =
          .ok (dictSet d k ((none : Option String), e, some "text/plain")) := by
        rw [encodeFieldStep, he]
        rfl
      rw [hstep, okBind] at hok
      rw [List.mem_cons] at hp
      rcases hp with hp | hp
      · subst hp
        simp [encodable, he]
      · exact ih _ m hok p hp

theorem dictGet_encodeFields_ok {kwargs : List (String × PyVal)} {m : MultipartDict}
    (hnd : (kwargs.map Prod.fst).Nodup) (h : encodeFields kwargs = .ok m) (k : String) :
    dictGet m k = (dictGet kwargs k).map fun v =>
      ((none : Option String), encodeValueClaim v, some "text/plain") := by
  have hall := encodable_of_foldlM_ok kwargs [] m h
  rw [encodeFields_eq_map kwargs hnd hall] at h
  injection h with h2
  rw [← h2]
  exact dictGet_map_value
    (fun v => ((none : Option String), encodeValueClaim v, some "text/plain")) kwargs k

theorem keys_encodeValueMap (d : List (String × PyVal)) :
    ((d.map fun p =>
      (p.1, ((none : Option String), encodeValueClaim p.2, some "text/plain"))).map
        Prod.fst) = d.map Prod.fst := by
  induction d with
  | nil => rfl
  | cons p rest ih => simp [ih]

theorem encodeField_error_of_unsupported {v : PyVal} (h : unsupportedKind v = true) :
    encodeField v = .error (.valueError
      ("Unsupported type: <class " ++ squote ++ pyTypeName v ++ squote ++ ">")) := by
  cases v <;> first
    | rfl
    | simp [unsupportedKind] at h

/-- Claim C1 as stated is false on the code: a supported scalar field value
is passed through unchanged, `(None, value, "text/plain")`, not stringified
to `(None, str(value), "text/plain")`; and a dict whose contents
`json.dumps` rejects raises `TypeError` instead of being encoded as JSON. -/
theorem multipart_field_encoding_cex :
    generate_multipart_json (fun _ => none) none [("count", .int 5)] =
      .ok [("count", ((none : Option String), .pv (.int 5), some "text/plain"))] ∧
    (PartData.pv (.int 5) ≠ .pv (.str "5")) ∧
    generate_multipart_json (fun _ => none) none [("meta", .dict [("k", .bytes "x")])] =
      .error (.typeError "Object is not JSON serializable") := by
  refine ⟨rfl, by simp, ?_⟩
  simp [generate_multipart_json, encodeFields, encodeFieldStep, encodeField, jsonDumps,
    jsonDumpsDict, Except.map]

/-- Claim C1 (amended): for every call to the multipart builder with no
file path and distinct field names, every field whose value is a supported
scalar kind (string, bytes, boolean, integer, float) is encoded as the
triple `(None, value, "text/plain")` with the value passed through
unchanged; every list or tuple value is encoded as
`(None, the comma-joined str of its elements, "text/plain")`; every dict
value accepted by `json.dumps` is encoded as
`(None, its JSON serialization, "text/plain")`; and any field of any other
kind causes the unsupported-type `ConfigurationError` (after the fields
before it encoded successfully). -/
theorem multipart_field_encoding :
    (∀ (fs : FileSystem) (kwargs : List (String × PyVal)),
      (kwargs.map Prod.fst).Nodup →
      (∀ p ∈ kwargs, encodable p.2 = true) →
      generate_multipart_json fs none kwargs =
        .ok (kwargs.map fun p =>
          (p.1, ((none : Option String), encodeValueClaim p.2, some "text/plain")))) ∧
    (∀ v, isScalar v = true → encodeValueClaim v = .pv v) ∧
    (∀ (fs : FileSystem) (pre : List (String × PyVal)) (n : String) (v : PyVal)
        (rest : List (String × PyVal)),
      (∀ p ∈ pre, encodable p.2 = true) →
      unsupportedKind v = true →
      generate_multipart_json fs none (pre ++ (n, v) :: rest) =
        .error (.valueError
          ("Unsupported type: <class " ++ squote ++ pyTypeName v ++ squote ++ ">"))) := by
  refine ⟨?_, ?_, ?_⟩
  · intro fs kwargs hnd henc
    rw [generate_multipart_json, encodeFields_eq_map kwargs hnd henc, okBind]
    rfl
  · intro v hv
    cases v <;> first
      | rfl
      | simp [isScalar] at hv
  · intro fs pre n v rest hpre hv
    have herr := foldlM_encode_error pre ([] : MultipartDict) hpre n v rest _
      (encodeField_error_of_unsupported hv)
    rw [generate_multipart_json, encodeFields, herr, errBind]

/-- Witness for C1 (amended) at concrete fields. -/
theorem multipart_field_encoding_witness :
    generate_multipart_json (fun _ => none) none
      [("a", .str "x"), ("n", .int 7), ("flag", .bool false),
        ("xs", .list [.int 1, .int 2])] =
      .ok [("a", ((none : Option String), .pv (.str "x"), some "text/plain")),
        ("n", ((none : Option String), .pv (.int 7), some "text/plain")),
        ("flag", ((none : Option String), .pv (.bool false), some "text/plain")),
        ("xs", ((none : Option String), .pv (.str "1,2"), some "text/plain"))] ∧
    generate_multipart_json (fun _ => none) none [("a", .str "x"), ("bad", .pynone)] =
      .error (.valueError
        ("Unsupported type: <class " ++ squote ++ "NoneType" ++ squote ++ ">")) := by
  constructor
  · rw [multipart_field_encoding.1 (fun _ => none)
      [("a", .str "x"), ("n", .int 7), ("flag", .bool false), ("xs", .list [.int 1, .int 2])]
      (by decide) (by decide)]
    simp [encodeValueClaim, pyStr, pyRepr, String.intercalate]
    decide
  · exact multipart_field_encoding.2.2 (fun _ => none) [("a", .str "x")] "bad" .pynone []
      (by decide) (by decide)

/-- Claim C2 as stated is false on the code: a field named `"file"` is
overwritten in place by the file entry (so the result is not the encoded
fields plus one additional last entry), and a directory path raises the
unsupported-type error, not the directory error, when a field value is of
an unsupported kind (field encoding runs first). -/
theorem multipart_file_part_cex :
    generate_multipart_json
      (fun p => if p = "c.onnx" then some (.file "BIN") else none) (some "c.onnx")
      [("file", .str "x"), ("tag", .str "t")] =
      .ok [("file", (some "c.onnx", .fileHandle "BIN", none)),
        ("tag", ((none : Option String), .pv (.str "t"), some "text/plain"))] ∧
    generate_multipart_json (fun p => if p = "d" then some .dir else none) (some "d")
      [("x", .pynone)] =
      .error (.valueError
        ("Unsupported type: <class " ++ squote ++ "NoneType" ++ squote ++ ">")) :=
  ⟨rfl, rfl⟩

/-- Claim C2 (amended): for every field mapping with distinct names, all
values of supported kinds, and no field named `"file"`: building with a
path that is a regular file yields the encoded fields plus exactly one
additional entry keyed `"file"` holding
`(the file basename, its binary content, None)` as the last entry;
building with a directory path raises `UnsupportedInputError`; building
with a nonexistent path raises `NotFoundError`. -/
theorem multipart_file_part :
    ∀ (fs : FileSystem) (kwargs : List (String × PyVal)) (path : String),
      (kwargs.map Prod.fst).Nodup →
      (∀ p ∈ kwargs, encodable p.2 = true) →
      "file" ∉ kwargs.map Prod.fst →
      (isFile fs path = true →
        generate_multipart_json fs (some path) kwargs =
          .ok ((kwargs.map fun p =>
            (p.1, ((none : Option String), encodeValueClaim p.2, some "text/plain")))
            ++ [("file", (some (baseName path), .fileHandle (readFile fs path), none))])) ∧
      (isDir fs path = true →
        generate_multipart_json fs (some path) kwargs =
          .error (.valueError "Directory uploads are not supported")) ∧
      (fs path = none →
        generate_multipart_json fs (some path) kwargs =
          .error (.fileNotFoundError ("Could not locate file at " ++ path))) := by
  intro fs kwargs path hnd henc hnofile
  have hM := encodeFields_eq_map kwargs hnd henc
  refine ⟨?_, ?_, ?_⟩
  · intro hfile
    cases hfs : fs path with
    | none =>
      rw [isFile, hfs] at hfile
      simp at hfile
    | some n =>
      cases n with
      | dir =>
        rw [isFile, hfs] at hfile
        simp at hfile
      | file content =>
        have hdir : isDir fs path = false := by
          rw [isDir, hfs]
        have hread : readFile fs path = content := by
          rw [readFile, hfs]
        rw [generate_multipart_json, hM, okBind]
        simp only [hdir, hfile, hread, Bool.false_eq_true, if_false, not_true,
          ite_false, ite_true, Bool.true_eq_false, not_false_iff]
        rw [dictSet_append_of_not_mem _ (by rw [keys_encodeValueMap]; exact hnofile)]
        rfl
  · intro hdir
    rw [generate_multipart_json, hM, okBind]
    simp [hdir]
  · intro hnone
    have hdir : isDir fs path = false := by
      rw [isDir, hnone]
    have hfile : isFile fs path = false := by
      rw [isFile, hnone]
    rw [generate_multipart_json, hM, okBind]
    simp [hdir, hfile]

/-- Witness for C2 (amended) at a concrete filesystem. -/
theorem multipart_file_part_witness :
    generate_multipart_json
      (fun p => if p = "dir/ck.onnx" then some (.file "BIN")
        else if p = "adir" then some .dir else none)
      (some "dir/ck.onnx") [("tag", .str "t")] =
      .ok [("tag", ((none : Option String), .pv (.str "t"), some "text/plain")),
        ("file", (some "ck.onnx", .fileHandle "BIN", none))] ∧
    generate_multipart_json
      (fun p => if p = "dir/ck.onnx" then some (.file "BIN")
        else if p = "adir" then some .dir else none)
      (some "adir") [("tag", .str "t")] =
      .error (.valueError "Directory uploads are not supported") ∧
    generate_multipart_json
      (fun p => if p = "dir/ck.onnx" then some (.file "BIN")
        else if p = "adir" then some .dir else none)
      (some "gone") [("tag", .str "t")] =
      .error (.fileNotFoundError "Could not locate file at gone") := by
  refine ⟨?_, ?_, ?_⟩
  · rw [(multipart_file_part
      (fun p => if p = "dir/ck.onnx" then some (.file "BIN")
        else if p = "adir" then some .dir else none)
      [("tag", .str "t")] "dir/ck.onnx" (by decide) (by decide) (by decide)).1 (by decide)]
    rfl
  · exact (multipart_file_part
      (fun p => if p = "dir/ck.onnx" then some (.file "BIN")
        else if p = "adir" then some .dir else none)
      [("tag", .str "t")] "adir" (by decide) (by decide) (by decide)).2.1 (by decide)
  · exact (multipart_file_part
      (fun p => if p = "dir/ck.onnx" then some (.file "BIN")
        else if p = "adir" then some .dir else none)
      [("tag", .str "t")] "gone" (by decide) (by decide) (by decide)).2.2 (by decide)

/-! ## Claims about the authentication layer -/
/-- Claim C3: for every prior `Authorization` header state and every token,
when `login(token=T)` fails — because the expiry claim is already past (no
probe issued), or because both probes come back as HTTP status errors
(401-style and 403-style alike) — the session afterwards carries exactly
the prior header value (reinstalled, or absent if there was none). -/
theorem login_probe_rollback :
    ∀ (w : World) (c : BaseClient) (t : String) (exp : Int),
      w.decodeExp t = some (some exp) →
      (exp < w.now →
        login w c none none (some t) = ⟨c, .error (.valueError "Token has expired")⟩) ∧
      (¬ exp < w.now →
        ∀ (s₁ : Nat) (b₁ : String) (s₂ : Nat) (b₂ : String),
          (withBearer c t).request w .GET "/api/auth/user" [] .empty false =
            .error (.httpError s₁ b₁) →
          (withBearer c t).request w .GET "/api/auth/admin" [] .empty false =
            .error (.httpError s₂ b₂) →
          dictGet (login w c none none (some t)).client.session.headers "Authorization" =
            dictGet c.session.headers "Authorization" ∧
          (login w c none none (some t)).result = .error (.valueError "Invalid token")) := by
  intro w c t exp hdec
  constructor
  · intro hexp
    simp only [login, validate_and_set_token, hdec, if_pos hexp]
  · intro hexp s₁ b₁ s₂ b₂ hu ha
    simp only [login, validate_and_set_token, hdec, if_neg hexp, hu, ha]
    cases hold : dictGet c.session.headers "Authorization" with
    | some o =>
      refine ⟨?_, trivial⟩
      simp only [setHeader, withBearer]
      rw [dictGet_dictSet_self]
    | none =>
      refine ⟨?_, trivial⟩
      simp only [popHeader, setHeader, withBearer]
      rw [dictPop_dictSet_of_absent _ _ _ hold]
      exact hold

/-- Witness for C3 at a concrete world: a session with a prior header, an
expired token, and a token both probes reject with 401. -/
theorem login_probe_rollback_witness :
    login ⟨fun _ => .resp ⟨401, none, []⟩, 200, fun _ => some (some 100), none, none,
        "u", "p"⟩
      ⟨"https://h".data, ⟨[("Authorization", "Bearer old")], []⟩⟩ none none (some "T") =
      ⟨⟨"https://h".data, ⟨[("Authorization", "Bearer old")], []⟩⟩,
        .error (.valueError "Token has expired")⟩ ∧
    dictGet (login ⟨fun _ => .resp ⟨401, none, []⟩, 0, fun _ => some (some 100), none,
        none, "u", "p"⟩
      ⟨"https://h".data, ⟨[("Authorization", "Bearer old")], []⟩⟩ none none
        (some "T")).client.session.headers "Authorization" = some "Bearer old" ∧
    (login ⟨fun _ => .resp ⟨401, none, []⟩, 0, fun _ => some (some 100), none, none,
        "u", "p"⟩
      ⟨"https://h".data, ⟨[("Authorization", "Bearer old")], []⟩⟩ none none
        (some "T")).result = .error (.valueError "Invalid token") := by
  refine ⟨?_, ?_, ?_⟩
  · exact (login_probe_rollback
      ⟨fun _ => .resp ⟨401, none, []⟩, 200, fun _ => some (some 100), none, none, "u", "p"⟩
      ⟨"https://h".data, ⟨[("Authorization", "Bearer old")], []⟩⟩ "T" 100 rfl).1 (by decide)
  · exact ((login_probe_rollback
      ⟨fun _ => .resp ⟨401, none, []⟩, 0, fun _ => some (some 100), none, none, "u", "p"⟩
      ⟨"https://h".data, ⟨[("Authorization", "Bearer old")], []⟩⟩ "T" 100 rfl).2
      (by decide) 401 "" 401 "" rfl rfl).1
  · exact ((login_probe_rollback
      ⟨fun _ => .resp ⟨401, none, []⟩, 0, fun _ => some (some 100), none, none, "u", "p"⟩
      ⟨"https://h".data, ⟨[("Authorization", "Bearer old")], []⟩⟩ "T" 100 rfl).2
      (by decide) 401 "" 401 "" rfl rfl).2

/-- Claim C4 as stated is false on the code: when the probes fail with HTTP
status 401, the raised error is the generic `ValueError("Invalid token")`
(the spec's `InvalidTokenError`), not the expired-token error the claim
requires for 401. -/
theorem token_error_classification_cex :
    (login ⟨fun _ => .resp ⟨401, none, []⟩, 0, fun _ => some (some 100), none, none,
        "u", "p"⟩
      ⟨"https://h".data, ⟨[], []⟩⟩ none none (some "T")).result =
      .error (.valueError "Invalid token") ∧
    PyError.valueError "Invalid token" ≠ PyError.valueError "Token has expired" :=
  ⟨rfl, by decide⟩

/-- Claim C4 (amended): the expired-token error (`"Token has expired"`) is
raised only by the local expiry pre-check, without a probe; when both
probes fail with HTTP status errors, the invalid-token error
(`"Invalid token"`) is raised regardless of the statuses (401, 403 or any
other); and a non-HTTP transport error from either probe is re-raised
unchanged. -/
theorem token_error_classification :
    ∀ (w : World) (c : BaseClient) (t : String) (exp : Int),
      w.decodeExp t = some (some exp) →
      (exp < w.now →
        (login w c none none (some t)).result = .error (.valueError "Token has expired")) ∧
      (¬ exp < w.now →
        (∀ (s₁ : Nat) (b₁ : String) (s₂ : Nat) (b₂ : String),
          (withBearer c t).request w .GET "/api/auth/user" [] .empty false =
            .error (.httpError s₁ b₁) →
          (withBearer c t).request w .GET "/api/auth/admin" [] .empty false =
            .error (.httpError s₂ b₂) →
          (login w c none none (some t)).result = .error (.valueError "Invalid token")) ∧
        (∀ tag : String,
          (withBearer c t).request w .GET "/api/auth/user" [] .empty false =
            .error (.transportError tag) →
          (login w c none none (some t)).result = .error (.transportError tag)) ∧
        (∀ (s₁ : Nat) (b₁ : String) (tag : String),
          (withBearer c t).request w .GET "/api/auth/user" [] .empty false =
            .error (.httpError s₁ b₁) →
          (withBearer c t).request w .GET "/api/auth/admin" [] .empty false =
            .error (.transportError tag) →
          (login w c none none (some t)).result = .error (.transportError tag))) := by
  intro w c t exp hdec
  constructor
  · intro hexp
    simp only [login, validate_and_set_token, hdec, if_pos hexp]
  · intro hexp
    refine ⟨?_, ?_, ?_⟩
    · intro s₁ b₁ s₂ b₂ hu ha
      simp only [login, validate_and_set_token, hdec, if_neg hexp, hu, ha]
    · intro tag hu
      simp only [login, validate_and_set_token, hdec, if_neg hexp, hu]
    · intro s₁ b₁ tag hu ha
      simp only [login, validate_and_set_token, hdec, if_neg hexp, hu, ha]

/-- Witness for C4 (amended) at concrete worlds: a 403-rejecting probe, an
expired claim, and a connection failure. -/
theorem token_error_classification_witness :
    (login ⟨fun _ => .resp ⟨403, none, []⟩, 0, fun _ => some (some 100), none, none,
        "u", "p"⟩
      ⟨"https://h".data, ⟨[], []⟩⟩ none none (some "T")).result =
      .error (.valueError "Invalid token") ∧
    (login ⟨fun _ => .resp ⟨403, none, []⟩, 200, fun _ => some (some 100), none, none,
        "u", "p"⟩
      ⟨"https://h".data, ⟨[], []⟩⟩ none none (some "T")).result =
      .error (.valueError "Token has expired") ∧
    (login ⟨fun _ => .conErr "connection refused", 0, fun _ => some (some 100), none,
        none, "u", "p"⟩
      ⟨"https://h".data, ⟨[], []⟩⟩ none none (some "T")).result =
      .error (.transportError "connection refused") := by
  refine ⟨?_, ?_, ?_⟩
  · exact ((token_error_classification
      ⟨fun _ => .resp ⟨403, none, []⟩, 0, fun _ => some (some 100), none, none, "u", "p"⟩
      ⟨"https://h".data, ⟨[], []⟩⟩ "T" 100 rfl).2 (by decide)).1 403 "" 403 "" rfl rfl
  · exact (token_error_classification
      ⟨fun _ => .resp ⟨403, none, []⟩, 200, fun _ => some (some 100), none, none, "u", "p"⟩
      ⟨"https://h".data, ⟨[], []⟩⟩ "T" 100 rfl).1 (by decide)
  · exact ((token_error_classification
      ⟨fun _ => .conErr "connection refused", 0, fun _ => some (some 100), none, none,
        "u", "p"⟩
      ⟨"https://h".data, ⟨[], []⟩⟩ "T" 100 rfl).2 (by decide)).2.1
      "connection refused" rfl

/-- Claim C5: when the probe succeeds (a non-raising response from the
user-scope route, or from the admin-scope route after the user-scope probe
raised an HTTP status error), `login` returns with
`Authorization: Bearer <token>` installed, and every request subsequently
built from the resulting session carries that header. -/
theorem probe_success_installs_token :
    ∀ (w : World) (c : BaseClient) (t : String) (exp : Int),
      w.decodeExp t = some (some exp) → ¬ exp < w.now →
      ((∃ r, (withBearer c t).request w .GET "/api/auth/user" [] .empty false = .ok r) ∨
        ((∃ s b, (withBearer c t).request w .GET "/api/auth/user" [] .empty false =
            .error (.httpError s b)) ∧
         (∃ r, (withBearer c t).request w .GET "/api/auth/admin" [] .empty false =
            .ok r))) →
      (login w c none none (some t)).result = .ok () ∧
      (login w c none none (some t)).client = withBearer c t ∧
      dictGet (login w c none none (some t)).client.session.headers "Authorization" =
        some ("Bearer " ++ t) ∧
      ∀ (m : MethodType) (route : String) (params : List (String × PyVal))
          (body : ReqBody) (stream : Bool),
        dictGet ((login w c none none (some t)).client.buildRequest m route params body
          stream).headers "Authorization" = some ("Bearer " ++ t) := by
  intro w c t exp hdec hexp hprobe
  have hclient : (login w c none none (some t)).client = withBearer c t ∧
      (login w c none none (some t)).result = .ok () := by
    rcases hprobe with ⟨r, hr⟩ | ⟨⟨s, b, hu⟩, ⟨r, hr⟩⟩
    · constructor <;> simp only [login, validate_and_set_token, hdec, if_neg hexp, hr]
    · constructor <;> simp only [login, validate_and_set_token, hdec, if_neg hexp, hu, hr]
  have hhdr : dictGet (withBearer c t).session.headers "Authorization" =
      some ("Bearer " ++ t) := by
    simp only [withBearer, setHeader]
    rw [dictGet_dictSet_self]
  refine ⟨hclient.2, hclient.1, ?_, ?_⟩
  · rw [hclient.1]
    exact hhdr
  · intro m route params body stream
    rw [hclient.1]
    exact hhdr

/-- Witness for C5 at concrete worlds: a probe accepted on the user route,
and one rejected there with 401 but accepted on the admin route. -/
theorem probe_success_installs_token_witness :
    (login ⟨fun _ => .resp ⟨200, none, []⟩, 0, fun _ => some (some 100), none, none,
        "u", "p"⟩
      ⟨"https://h".data, ⟨[], []⟩⟩ none none (some "T")).result = .ok () ∧
    dictGet (login ⟨fun _ => .resp ⟨200, none, []⟩, 0, fun _ => some (some 100), none,
        none, "u", "p"⟩
      ⟨"https://h".data, ⟨[], []⟩⟩ none none
        (some "T")).client.session.headers "Authorization" = some "Bearer T" ∧
    dictGet (login
      ⟨fun req => if req.url = "https://h/api/auth/admin".data then .resp ⟨200, none, []⟩
          else .resp ⟨401, none, []⟩, 0, fun _ => some (some 100), none, none, "u", "p"⟩
      ⟨"https://h".data, ⟨[], []⟩⟩ none none
        (some "T")).client.session.headers "Authorization" = some "Bearer T" := by
  refine ⟨?_, ?_, ?_⟩
  · exact (probe_success_installs_token
      ⟨fun _ => .resp ⟨200, none, []⟩, 0, fun _ => some (some 100), none, none, "u", "p"⟩
      ⟨"https://h".data, ⟨[], []⟩⟩ "T" 100 rfl (by decide)
      (Or.inl ⟨⟨200, none, []⟩, rfl⟩)).1
  · exact (probe_success_installs_token
      ⟨fun _ => .resp ⟨200, none, []⟩, 0, fun _ => some (some 100), none, none, "u", "p"⟩
      ⟨"https://h".data, ⟨[], []⟩⟩ "T" 100 rfl (by decide)
      (Or.inl ⟨⟨200, none, []⟩, rfl⟩)).2.2.1
  · exact (probe_success_installs_token
      ⟨fun req => if req.url = "https://h/api/auth/admin".data then .resp ⟨200, none, []⟩
          else .resp ⟨401, none, []⟩, 0, fun _ => some (some 100), none, none, "u", "p"⟩
      ⟨"https://h".data, ⟨[], []⟩⟩ "T" 100 rfl (by decide)
      (Or.inr ⟨⟨401, "", rfl⟩, ⟨⟨200, none, []⟩, rfl⟩⟩)).2.2.1

/-! ## Claims about field-merge precedence, downloads, and the facade -/
theorem generate_ok_inv {fs : FileSystem} {path : String}
    {kwargs : List (String × PyVal)} {body : MultipartDict}
    (h : generate_multipart_json fs (some path) kwargs = .ok body) :
    ∃ m, encodeFields kwargs = .ok m ∧
      body = dictSet m "file"
        (some (baseName path), .fileHandle (readFile fs path), none) := by
  rw [generate_multipart_json] at h
  cases he : encodeFields kwargs with
  | error e =>
    rw [he, errBind] at h
    exact absurd h (by simp)
  | ok m =>
    rw [he, okBind] at h
    refine ⟨m, rfl, ?_⟩
    by_cases hd : isDir fs path = true
    · simp [hd] at h
    · by_cases hf : isFile fs path = true
      · simp only [hd, hf, Bool.false_eq_true, if_false, not_true, ite_false,
          ite_true, Bool.true_eq_false, not_false_iff] at h
        exact (Except.ok.inj h).symm
      · simp [hd, hf] at h

/-- Claim C6 as stated is false on the code: in `add_checkpoint` the named
`checkpoint_name`/`tag` parameters are written after the kwargs merge, so
with both `checkpoint_name="named"` and `fileName="bag"` in the extension
bag, the outgoing multipart body carries the named value, not the bag
value. -/
theorem field_merge_precedence_cex :
    add_checkpoint (fun p => if p = "ck.onnx" then some (.file "D") else none)
      "p1" "ck.onnx" (.fmt .ONNX) (some "named") none [("fileName", .str "bag")] =
      .ok [("projectId", ((none : Option String), .pv (.str "p1"), some "text/plain")),
        ("format", ((none : Option String), .pv (.str "ONNX"), some "text/plain")),
        ("fileName", ((none : Option String), .pv (.str "named"), some "text/plain")),
        ("file", (some "ck.onnx", .fileHandle "D", none))] ∧
    ("named" : String) ≠ "bag" :=
  ⟨rfl, by decide⟩

/-- Claim C6 (amended): in `static_analysis` the extension bag is merged
last, so a bag entry wins over any named field with the same key; in
`add_checkpoint`, however, the named `checkpoint_name` and `tag` parameters
are applied after the bag merge, so for the keys `fileName` and `tag` the
named value is the one present in the outgoing multipart body. -/
theorem field_merge_precedence :
    (∀ (pid cid : String) (cmp : Comparison) (wn bn : Option (List String))
        (kwargs : List (String × PyVal)) (k : String) (v : PyVal)
        (body : List (String × PyVal)),
      (kwargs.map Prod.fst).Nodup →
      dictGet kwargs k = some v →
      static_analysis pid cid (.cmp cmp) wn bn kwargs = .ok body →
      dictGet body k = some v) ∧
    (∀ (fs : FileSystem) (pid path : String) (fmt : FormatArg) (n : String)
        (tag : Option String) (kwargs : List (String × PyVal)) (body : MultipartDict),
      add_checkpoint fs pid path fmt (some n) tag kwargs = .ok body →
      dictGet body "fileName" =
        some ((none : Option String), .pv (.str n), some "text/plain")) ∧
    (∀ (fs : FileSystem) (pid path : String) (fmt : FormatArg)
        (cn : Option String) (t : String) (kwargs : List (String × PyVal))
        (body : MultipartDict),
      add_checkpoint fs pid path fmt cn (some t) kwargs = .ok body →
      dictGet body "tag" =
        some ((none : Option String), .pv (.str t), some "text/plain")) := by
  refine ⟨?_, ?_, ?_⟩
  · intro pid cid cmp wn bn kwargs k v body hnd hget h
    simp only [static_analysis, coerceComparison, okBind] at h
    have hb := (Except.ok.inj h).symm
    rw [hb]
    exact dictGet_dictUpdate_mem kwargs k v hnd hget _
  · intro fs pid path fmt n tag kwargs body h
    rw [add_checkpoint] at h
    split at h
    · exact absurd h (by simp)
    · split at h
      · exact absurd h (by simp)
      · cases hcf : coerceFileType fmt with
        | error e =>
          rw [hcf, errBind] at h
          exact absurd h (by simp)
        | ok ft =>
          rw [hcf, okBind] at h
          obtain ⟨m, hm, hbody⟩ := generate_ok_inv h
          have hnd : ((match tag with
              | some t => dictSet (dictSet (dictUpdate
                  [("projectId", PyVal.str pid), ("format", PyVal.str ft.value)] kwargs)
                  "fileName" (PyVal.str n)) "tag" (PyVal.str t)
              | none => dictSet (dictUpdate
                  [("projectId", PyVal.str pid), ("format", PyVal.str ft.value)] kwargs)
                  "fileName" (PyVal.str n)).map Prod.fst).Nodup := by
            cases tag with
            | none =>
              exact nodup_keys_dictSet _ (nodup_keys_dictUpdate _ _ (by simp))
            | some t =>
              exact nodup_keys_dictSet _
                (nodup_keys_dictSet _ (nodup_keys_dictUpdate _ _ (by simp)))
          rw [hbody, dictGet_dictSet_ne _ _ _ _ (by decide)]
          cases tag with
          | none =>
            rw [dictGet_encodeFields_ok hnd hm "fileName"]
            rw [dictGet_dictSet_self]
            rfl
          | some t =>
            rw [dictGet_encodeFields_ok hnd hm "fileName"]
            rw [dictGet_dictSet_ne _ _ _ _ (by decide), dictGet_dictSet_self]
            rfl
  · intro fs pid path fmt cn t kwargs body h
    rw [add_checkpoint] at h
    split at h
    · exact absurd h (by simp)
    · split at h
      · exact absurd h (by simp)
      · cases hcf : coerceFileType fmt with
        | error e =>
          rw [hcf, errBind] at h
          exact absurd h (by simp)
        | ok ft =>
          rw [hcf, okBind] at h
          obtain ⟨m, hm, hbody⟩ := generate_ok_inv h
          have hnd : ((dictSet (match cn with
              | some nn => dictSet (dictUpdate
                  [("projectId", PyVal.str pid), ("format", PyVal.str ft.value)] kwargs)
                  "fileName" (PyVal.str nn)
              | none => dictUpdate
                  [("projectId", PyVal.str pid), ("format", PyVal.str ft.value)] kwargs)
              "tag" (PyVal.str t)).map Prod.fst).Nodup := by
            cases cn with
            | none =>
              exact nodup_keys_dictSet _ (nodup_keys_dictUpdate _ _ (by simp))
            | some nn =>
              exact nodup_keys_dictSet _
                (nodup_keys_dictSet _ (nodup_keys_dictUpdate _ _ (by simp)))
          rw [hbody, dictGet_dictSet_ne _ _ _ _ (by decide)]
          cases cn with
          | none =>
            rw [dictGet_encodeFields_ok hnd hm "tag", dictGet_dictSet_self]
            rfl
          | some nn =>
            rw [dictGet_encodeFields_ok hnd hm "tag", dictGet_dictSet_self]
            rfl

/-- Witness for C6 (amended) at concrete calls. -/
theorem field_merge_precedence_witness :
    static_analysis "p1" "f1" (.cmp .PREVIOUS) none none
      [("comparisonType", .str "ALL")] =
      .ok [("projectId", PyVal.str "p1"), ("fileId", PyVal.str "f1"),
        ("comparisonType", PyVal.str "ALL")] ∧
    dictGet [("projectId", PyVal.str "p1"), ("fileId", PyVal.str "f1"),
      ("comparisonType", PyVal.str "ALL")] "comparisonType" = some (PyVal.str "ALL") ∧
    add_checkpoint (fun p => if p = "ck.onnx" then some (.file "D") else none)
      "p1" "ck.onnx" (.fmt .ONNX) (some "named") (some "t1")
      [("fileName", .str "bag"), ("tag", .str "bagtag")] =
      .ok [("projectId", ((none : Option String), PartData.pv (.str "p1"), some "text/plain")),
        ("format", ((none : Option String), PartData.pv (.str "ONNX"), some "text/plain")),
        ("fileName", ((none : Option String), PartData.pv (.str "named"), some "text/plain")),
        ("tag", ((none : Option String), PartData.pv (.str "t1"), some "text/plain")),
        ("file", (some "ck.onnx", PartData.fileHandle "D", none))] ∧
    dictGet [("projectId", ((none : Option String), PartData.pv (.str "p1"), some "text/plain")),
        ("format", ((none : Option String), PartData.pv (.str "ONNX"), some "text/plain")),
        ("fileName", ((none : Option String), PartData.pv (.str "named"), some "text/plain")),
        ("tag", ((none : Option String), PartData.pv (.str "t1"), some "text/plain")),
        ("file", (some "ck.onnx", PartData.fileHandle "D", none))] "fileName" =
      some ((none : Option String), PartData.pv (.str "named"), some "text/plain") ∧
    dictGet [("projectId", ((none : Option String), PartData.pv (.str "p1"), some "text/plain")),
        ("format", ((none : Option String), PartData.pv (.str "ONNX"), some "text/plain")),
        ("fileName", ((none : Option String), PartData.pv (.str "named"), some "text/plain")),
        ("tag", ((none : Option String), PartData.pv (.str "t1"), some "text/plain")),
        ("file", (some "ck.onnx", PartData.fileHandle "D", none))] "tag" =
      some ((none : Option String), PartData.pv (.str "t1"), some "text/plain") := by
  refine ⟨rfl, ?_, rfl, ?_, ?_⟩
  · exact field_merge_precedence.1 "p1" "f1" .PREVIOUS none none
      [("comparisonType", .str "ALL")] "comparisonType" (.str "ALL") _
      (by decide) rfl rfl
  · exact field_merge_precedence.2.1
      (fun p => if p = "ck.onnx" then some (.file "D") else none)
      "p1" "ck.onnx" (.fmt .ONNX) "named" (some "t1")
      [("fileName", .str "bag"), ("tag", .str "bagtag")] _ rfl
  · exact field_merge_precedence.2.2
      (fun p => if p = "ck.onnx" then some (.file "D") else none)
      "p1" "ck.onnx" (.fmt .ONNX) (some "named") "t1"
      [("fileName", .str "bag"), ("tag", .str "bagtag")] _ rfl

theorem request_resp (w : World) (c : BaseClient) (m : MethodType) (route : String)
    (params : List (String × PyVal)) (body : ReqBody) (stream : Bool) (r : HttpResponse)
    (hnet : w.net (c.buildRequest m route params body stream) = .resp r) :
    c.request w m route params body stream =
      if 400 ≤ r.status ∧ r.status < 600 then .error (.httpError r.status r.content)
      else .ok r := by
  rw [BaseClient.request, hnet]

/-- Claim C8: a download operation whose destination already exists raises
`AlreadyExistsError` with `overwrite=False`, before any network request and
leaving the filesystem untouched; with `overwrite=True` and a successful
(2xx) response it replaces the destination with the downloaded content.
Holds for both `download_checkpoint` and `download_all_checkpoints`. -/
theorem download_overwrite_guard :
    (∀ (w : World) (fs : FileSystem) (c : BaseClient) (pid cid path : String)
        (kwargs : List (String × PyVal)),
      (fs path).isSome = true →
      download_checkpoint w fs c pid cid path false kwargs =
        ⟨fs, [], [], .error (.fileExistsError ("File " ++ path ++ " already exists"))⟩ ∧
      download_all_checkpoints w fs c pid path false kwargs =
        ⟨fs, [], [], .error (.fileExistsError ("File " ++ path ++ " already exists"))⟩) ∧
    (∀ (w : World) (fs : FileSystem) (c : BaseClient) (pid cid path : String)
        (kwargs : List (String × PyVal)) (r : HttpResponse),
      w.net (c.buildRequest .GET ("/project/file/" ++ cid)
        (dictUpdate [("projectId", .str pid)] kwargs) .empty true) = .resp r →
      200 ≤ r.status → r.status < 300 →
      (download_checkpoint w fs c pid cid path true kwargs).fs path =
        some (.file (String.join (r.chunks.filter fun ch => ch ≠ ""))) ∧
      (download_checkpoint w fs c pid cid path true kwargs).result = .ok ()) ∧
    (∀ (w : World) (fs : FileSystem) (c : BaseClient) (pid path : String)
        (kwargs : List (String × PyVal)) (r : HttpResponse),
      w.net (c.buildRequest .GET "/project/file"
        (dictUpdate [("projectId", .str pid)] kwargs) .empty true) = .resp r →
      200 ≤ r.status → r.status < 300 →
      (download_all_checkpoints w fs c pid path true kwargs).fs path =
        some (.file (String.join (r.chunks.filter fun ch => ch ≠ ""))) ∧
      (download_all_checkpoints w fs c pid path true kwargs).result = .ok ()) := by
  refine ⟨?_, ?_, ?_⟩
  · intro w fs c pid cid path kwargs hsome
    constructor
    · rw [download_checkpoint, downloadTo, if_pos ⟨hsome, by simp⟩]
    · rw [download_all_checkpoints, downloadTo, if_pos ⟨hsome, by simp⟩]
  · intro w fs c pid cid path kwargs r hnet h2a h2b
    have hreq : c.request w .GET ("/project/file/" ++ cid)
        (dictUpdate [("projectId", .str pid)] kwargs) .empty true = .ok r := by
      rw [request_resp w c .GET ("/project/file/" ++ cid)
        (dictUpdate [("projectId", .str pid)] kwargs) .empty true r hnet,
        if_neg (by omega)]
    rw [download_checkpoint, downloadTo, if_neg (by simp), hreq]
    constructor
    · simp [fsSet]
    · rfl
  · intro w fs c pid path kwargs r hnet h2a h2b
    have hreq : c.request w .GET "/project/file"
        (dictUpdate [("projectId", .str pid)] kwargs) .empty true = .ok r := by
      rw [request_resp w c .GET "/project/file"
        (dictUpdate [("projectId", .str pid)] kwargs) .empty true r hnet,
        if_neg (by omega)]
    rw [download_all_checkpoints, downloadTo, if_neg (by simp), hreq]
    constructor
    · simp [fsSet]
    · rfl

/-- Witness for C8 at a concrete filesystem and network. -/
theorem download_overwrite_guard_witness :
    download_checkpoint
      ⟨fun _ => .resp ⟨200, some "application/octet-stream", ["ab", "cd"]⟩, 0,
        fun _ => none, none, none, "u", "p"⟩
      (fun p => if p = "out.onnx" then some (.file "OLD") else none)
      ⟨"https://h".data, ⟨[], []⟩⟩ "p1" "f1" "out.onnx" false [] =
      ⟨(fun p => if p = "out.onnx" then some (.file "OLD") else none), [], [],
        .error (.fileExistsError "File out.onnx already exists")⟩ ∧
    (download_checkpoint
      ⟨fun _ => .resp ⟨200, some "application/octet-stream", ["ab", "cd"]⟩, 0,
        fun _ => none, none, none, "u", "p"⟩
      (fun p => if p = "out.onnx" then some (.file "OLD") else none)
      ⟨"https://h".data, ⟨[], []⟩⟩ "p1" "f1" "out.onnx" true []).fs "out.onnx" =
      some (.file "abcd") ∧
    (download_checkpoint
      ⟨fun _ => .resp ⟨200, some "application/octet-stream", ["ab", "cd"]⟩, 0,
        fun _ => none, none, none, "u", "p"⟩
      (fun p => if p = "out.onnx" then some (.file "OLD") else none)
      ⟨"https://h".data, ⟨[], []⟩⟩ "p1" "f1" "out.onnx" true []).result = .ok () := by
  refine ⟨?_, ?_, ?_⟩
  · exact ((download_overwrite_guard.1
      ⟨fun _ => .resp ⟨200, some "application/octet-stream", ["ab", "cd"]⟩, 0,
        fun _ => none, none, none, "u", "p"⟩
      (fun p => if p = "out.onnx" then some (.file "OLD") else none)
      ⟨"https://h".data, ⟨[], []⟩⟩ "p1" "f1" "out.onnx" [] (by decide)).1)
  · exact ((download_overwrite_guard.2.1
      ⟨fun _ => .resp ⟨200, some "application/octet-stream", ["ab", "cd"]⟩, 0,
        fun _ => none, none, none, "u", "p"⟩
      (fun p => if p = "out.onnx" then some (.file "OLD") else none)
      ⟨"https://h".data, ⟨[], []⟩⟩ "p1" "f1" "out.onnx" []
      ⟨200, some "application/octet-stream", ["ab", "cd"]⟩ rfl (by decide)
      (by decide)).1).trans rfl
  · exact ((download_overwrite_guard.2.1
      ⟨fun _ => .resp ⟨200, some "application/octet-stream", ["ab", "cd"]⟩, 0,
        fun _ => none, none, none, "u", "p"⟩
      (fun p => if p = "out.onnx" then some (.file "OLD") else none)
      ⟨"https://h".data, ⟨[], []⟩⟩ "p1" "f1" "out.onnx" []
      ⟨200, some "application/octet-stream", ["ab", "cd"]⟩ rfl (by decide)
      (by decide)).2)

/-- Claim C10: when the overwrite guard passes, `download_checkpoint` opens
the destination for binary writing — creating or truncating it — before the
request is issued, so an HTTP error from the request leaves the destination
as an empty file (any prior contents lost) while the error propagates. -/
theorem download_truncates_before_request :
    ∀ (w : World) (fs : FileSystem) (c : BaseClient) (pid cid path : String)
      (overwrite : Bool) (kwargs : List (String × PyVal)) (r : HttpResponse),
      (overwrite = true ∨ fs path = none) →
      w.net (c.buildRequest .GET ("/project/file/" ++ cid)
        (dictUpdate [("projectId", .str pid)] kwargs) .empty true) = .resp r →
      400 ≤ r.status → r.status < 600 →
      (download_checkpoint w fs c pid cid path overwrite kwargs).fs path =
        some (.file "") ∧
      (download_checkpoint w fs c pid cid path overwrite kwargs).result =
        .error (.httpError r.status r.content) := by
  intro w fs c pid cid path overwrite kwargs r hguard hnet h4a h4b
  have hreq : c.request w .GET ("/project/file/" ++ cid)
      (dictUpdate [("projectId", .str pid)] kwargs) .empty true =
      .error (.httpError r.status r.content) := by
    rw [request_resp w c .GET ("/project/file/" ++ cid)
      (dictUpdate [("projectId", .str pid)] kwargs) .empty true r hnet,
      if_pos ⟨h4a, h4b⟩]
  have hcond : ¬ ((fs path).isSome = true ∧ ¬ overwrite = true) := by
    rcases hguard with hg | hg
    · intro hc
      exact hc.2 hg
    · intro hc
      rw [hg] at hc
      simp at hc
  rw [download_checkpoint, downloadTo, if_neg hcond, hreq]
  constructor
  · simp [fsSet]
  · rfl

/-- Witness for C10: a failing request leaves a truncated destination. -/
theorem download_truncates_before_request_witness :
    (download_checkpoint
      ⟨fun _ => .resp ⟨500, none, ["boom"]⟩, 0, fun _ => none, none, none, "u", "p"⟩
      (fun p => if p = "out.onnx" then some (.file "OLD") else none)
      ⟨"https://h".data, ⟨[], []⟩⟩ "p1" "f1" "out.onnx" true []).fs "out.onnx" =
      some (.file "") ∧
    (download_checkpoint
      ⟨fun _ => .resp ⟨500, none, ["boom"]⟩, 0, fun _ => none, none, none, "u", "p"⟩
      (fun p => if p = "out.onnx" then some (.file "OLD") else none)
      ⟨"https://h".data, ⟨[], []⟩⟩ "p1" "f1" "out.onnx" true []).result =
      .error (.httpError 500 "boom") := by
  constructor
  · exact (download_truncates_before_request
      ⟨fun _ => .resp ⟨500, none, ["boom"]⟩, 0, fun _ => none, none, none, "u", "p"⟩
      (fun p => if p = "out.onnx" then some (.file "OLD") else none)
      ⟨"https://h".data, ⟨[], []⟩⟩ "p1" "f1" "out.onnx" true []
      ⟨500, none, ["boom"]⟩ (Or.inl rfl) rfl (by decide) (by decide)).1
  · exact ((download_truncates_before_request
      ⟨fun _ => .resp ⟨500, none, ["boom"]⟩, 0, fun _ => none, none, none, "u", "p"⟩
      (fun p => if p = "out.onnx" then some (.file "OLD") else none)
      ⟨"https://h".data, ⟨[], []⟩⟩ "p1" "f1" "out.onnx" true []
      ⟨500, none, ["boom"]⟩ (Or.inl rfl) rfl (by decide) (by decide)).2).trans rfl

/-- Claim C9 as stated is false on the code: `AuthentricsClient.__init__`
composes no result handler at all (`ResultHandler` exists in the repository
but is never instantiated by the facade), and the membership handler it
does compose is not exposed through any read accessor. -/
theorem facade_composition_cex :
    HandlerKind.result ∉ instantiatedHandlerKinds ∧
    HandlerKind.membership ∉ accessorHandlerKinds := by
  decide

/-- Claim C9 (amended): the facade composes the transport client with one
instance of each of the admin, authentication, checkpoint, dynamic,
membership, project, static-analysis and user handlers (no result handler),
tags the session with the `clientName: authrx-client` header, and exposes
each of these handlers except membership through a named read accessor,
each returning the composed instance holding the client reference. -/
theorem facade_composition :
    ∀ (u : String) (p : Option String) (c : AuthentricsClient),
      mkAuthentricsClient u p = .ok c →
      dictGet c.base.session.headers "clientName" = some "authrx-client" ∧
      (c.admin = ⟨c.base⟩ ∧ c.auth = ⟨c.base⟩ ∧ c.checkpoint = ⟨c.base⟩ ∧
        c.dynamic = ⟨c.base⟩ ∧ c.project = ⟨c.base⟩ ∧ c.staticAccessor = ⟨c.base⟩ ∧
        c.user = ⟨c.base⟩ ∧ c.membershipH = ⟨c.base⟩) ∧
      (∀ k ∈ accessorHandlerKinds, k ∈ instantiatedHandlerKinds) ∧
      HandlerKind.membership ∈ instantiatedHandlerKinds ∧
      HandlerKind.result ∉ instantiatedHandlerKinds := by
  intro u p c h
  rw [mkAuthentricsClient] at h
  cases ho : BaseClient.ofUrl u p with
  | error e =>
    rw [ho] at h
    exact absurd h (by simp [Except.map])
  | ok c0 =>
    rw [ho] at h
    simp only [Except.map] at h
    have hc : c = ⟨setHeader c0 "clientName" "authrx-client",
        ⟨setHeader c0 "clientName" "authrx-client"⟩, ⟨setHeader c0 "clientName" "authrx-client"⟩,
        ⟨setHeader c0 "clientName" "authrx-client"⟩, ⟨setHeader c0 "clientName" "authrx-client"⟩,
        ⟨setHeader c0 "clientName" "authrx-client"⟩, ⟨setHeader c0 "clientName" "authrx-client"⟩,
        ⟨setHeader c0 "clientName" "authrx-client"⟩, ⟨setHeader c0 "clientName" "authrx-client"⟩⟩ :=
      (Except.ok.inj h).symm
    subst hc
    refine ⟨?_, ⟨rfl, rfl, rfl, rfl, rfl, rfl, rfl, rfl⟩, by decide, by decide, by decide⟩
    simp only [setHeader]
    rw [dictGet_dictSet_self]

/-- Witness for C9 (amended) at a concrete URL. -/
theorem facade_composition_witness :
    mkAuthentricsClient "https://h" none =
      .ok ⟨⟨"https://h".data, ⟨[("clientName", "authrx-client")], []⟩⟩, ⟨⟨"https://h".data, ⟨[("clientName", "authrx-client")], []⟩⟩⟩, ⟨⟨"https://h".data, ⟨[("clientName", "authrx-client")], []⟩⟩⟩, ⟨⟨"https://h".data, ⟨[("clientName", "authrx-client")], []⟩⟩⟩, ⟨⟨"https://h".data, ⟨[("clientName", "authrx-client")], []⟩⟩⟩, ⟨⟨"https://h".data, ⟨[("clientName", "authrx-client")], []⟩⟩⟩, ⟨⟨"https://h".data, ⟨[("clientName", "authrx-client")], []⟩⟩⟩, ⟨⟨"https://h".data, ⟨[("clientName", "authrx-client")], []⟩⟩⟩, ⟨⟨"https://h".data, ⟨[("clientName", "authrx-client")], []⟩⟩⟩⟩ ∧
    dictGet (AuthentricsClient.base
      ⟨⟨"https://h".data, ⟨[("clientName", "authrx-client")], []⟩⟩, ⟨⟨"https://h".data, ⟨[("clientName", "authrx-client")], []⟩⟩⟩, ⟨⟨"https://h".data, ⟨[("clientName", "authrx-client")], []⟩⟩⟩, ⟨⟨"https://h".data, ⟨[("clientName", "authrx-client")], []⟩⟩⟩, ⟨⟨"https://h".data, ⟨[("clientName", "authrx-client")], []⟩⟩⟩, ⟨⟨"https://h".data, ⟨[("clientName", "authrx-client")], []⟩⟩⟩, ⟨⟨"https://h".data, ⟨[("clientName", "authrx-client")], []⟩⟩⟩, ⟨⟨"https://h".data, ⟨[("clientName", "authrx-client")], []⟩⟩⟩, ⟨⟨"https://h".data, ⟨[("clientName", "authrx-client")], []⟩⟩⟩⟩).session.headers "clientName" = some "authrx-client" ∧
    AuthentricsClient.admin ⟨⟨"https://h".data, ⟨[("clientName", "authrx-client")], []⟩⟩, ⟨⟨"https://h".data, ⟨[("clientName", "authrx-client")], []⟩⟩⟩, ⟨⟨"https://h".data, ⟨[("clientName", "authrx-client")], []⟩⟩⟩, ⟨⟨"https://h".data, ⟨[("clientName", "authrx-client")], []⟩⟩⟩, ⟨⟨"https://h".data, ⟨[("clientName", "authrx-client")], []⟩⟩⟩, ⟨⟨"https://h".data, ⟨[("clientName", "authrx-client")], []⟩⟩⟩, ⟨⟨"https://h".data, ⟨[("clientName", "authrx-client")], []⟩⟩⟩, ⟨⟨"https://h".data, ⟨[("clientName", "authrx-client")], []⟩⟩⟩, ⟨⟨"https://h".data, ⟨[("clientName", "authrx-client")], []⟩⟩⟩⟩ =
      ⟨AuthentricsClient.base ⟨⟨"https://h".data, ⟨[("clientName", "authrx-client")], []⟩⟩, ⟨⟨"https://h".data, ⟨[("clientName", "authrx-client")], []⟩⟩⟩, ⟨⟨"https://h".data, ⟨[("clientName", "authrx-client")], []⟩⟩⟩, ⟨⟨"https://h".data, ⟨[("clientName", "authrx-client")], []⟩⟩⟩, ⟨⟨"https://h".data, ⟨[("clientName", "authrx-client")], []⟩⟩⟩, ⟨⟨"https://h".data, ⟨[("clientName", "authrx-client")], []⟩⟩⟩, ⟨⟨"https://h".data, ⟨[("clientName", "authrx-client")], []⟩⟩⟩, ⟨⟨"https://h".data, ⟨[("clientName", "authrx-client")], []⟩⟩⟩, ⟨⟨"https://h".data, ⟨[("clientName", "authrx-client")], []⟩⟩⟩⟩⟩ := by
  refine ⟨rfl, ?_, ?_⟩
  · exact (facade_composition "https://h" none ⟨⟨"https://h".data, ⟨[("clientName", "authrx-client")], []⟩⟩, ⟨⟨"https://h".data, ⟨[("clientName", "authrx-client")], []⟩⟩⟩, ⟨⟨"https://h".data, ⟨[("clientName", "authrx-client")], []⟩⟩⟩, ⟨⟨"https://h".data, ⟨[("clientName", "authrx-client")], []⟩⟩⟩, ⟨⟨"https://h".data, ⟨[("clientName", "authrx-client")], []⟩⟩⟩, ⟨⟨"https://h".data, ⟨[("clientName", "authrx-client")], []⟩⟩⟩, ⟨⟨"https://h".data, ⟨[("clientName", "authrx-client")], []⟩⟩⟩, ⟨⟨"https://h".data, ⟨[("clientName", "authrx-client")], []⟩⟩⟩, ⟨⟨"https://h".data, ⟨[("clientName", "authrx-client")], []⟩⟩⟩⟩ rfl).1
  · exact (facade_composition "https://h" none ⟨⟨"https://h".data, ⟨[("clientName", "authrx-client")], []⟩⟩, ⟨⟨"https://h".data, ⟨[("clientName", "authrx-client")], []⟩⟩⟩, ⟨⟨"https://h".data, ⟨[("clientName", "authrx-client")], []⟩⟩⟩, ⟨⟨"https://h".data, ⟨[("clientName", "authrx-client")], []⟩⟩⟩, ⟨⟨"https://h".data, ⟨[("clientName", "authrx-client")], []⟩⟩⟩, ⟨⟨"https://h".data, ⟨[("clientName", "authrx-client")], []⟩⟩⟩, ⟨⟨"https://h".data, ⟨[("clientName", "authrx-client")], []⟩⟩⟩, ⟨⟨"https://h".data, ⟨[("clientName", "authrx-client")], []⟩⟩⟩, ⟨⟨"https://h".data, ⟨[("clientName", "authrx-client")], []⟩⟩⟩⟩ rfl).2.1.1

end Authentrics
